import Mathlib

/-!
Verification of the model-serving core of the Eva04IA demand-forecasting
repository, as a shallow embedding in Lean 4.

The embedding covers:
* the persisted model registry (`models/metadata.json`): its JSON shape, the
  reader/writer `_load_registry` / `_save_registry` of
  `src/serving/api_endpoints_only.py` and of `src/train/rollback.py`;
* the model loader (`reload_model` / `_load_model_from_registry`) and the
  `/model/activate` and `/model/reload` endpoints;
* the rollback tool (`set_current` / `rollback_previous` of
  `src/train/rollback.py`);
* the pandas feature deriver `agregar_caracteristicas` of
  `src/ingenieria_caracteristicas.py`;
* the `/predict` request path of `src/serving/api_endpoints_only.py`
  (`_normalize_input_columns`, `_ensure_expected_columns`, `predict`).

DataFrames are modelled column-oriented: a frame is an association list from
column name to the list of cell values of that column, in pandas column
order.  Machine floats are modelled as rationals; `NaN`/`NaT` is an explicit
cell.  Python's `json.dump`/`json.load` are modelled as a faithful codec
between Lean `Json` values and file contents; for the torn-write analysis the
file is additionally modelled at the character level through the `dumps`
serializer below.
-/

namespace Eva04

/-! ## JSON values (the parsed content of `models/metadata.json`) -/

/-- A JSON value, as produced by Python's `json` module.  Object fields are
kept in insertion order, which is the order `json.dump` writes them in. -/
inductive Json where
  | null : Json
  | bool (b : Bool) : Json
  | num (q : ℚ) : Json
  | str (s : String) : Json
  | arr (elems : List Json) : Json
  | obj (fields : List (String × Json)) : Json

/-- Field lookup in a JSON object, i.e. `d[k]` / `d.get(k)` on the parsed
Python dict (first occurrence; Python dict keys are unique). -/
def jsonLookup (fields : List (String × Json)) (k : String) : Option Json :=
  (fields.find? fun kv => kv.1 = k).map (·.2)

/-! ## The registry data model

`src/train/save_model.py` builds each version entry as the dict
`{"version": ..., "saved_at": ..., "metrics": ..., "model_path": ...}` and the
registry as `{"versions": [...], "current": ...}`. -/

/-- One entry of the `versions` list of `models/metadata.json`. -/
structure ModelVersion where
  version : String
  saved_at : String
  metrics : List (String × ℚ)
  model_path : String
  deriving DecidableEq

/-- The registry persisted in `models/metadata.json`: the ordered version
history plus the `current` pointer (`None` encodes JSON `null`). -/
structure Registry where
  versions : List ModelVersion
  current : Option String
  deriving DecidableEq

/-- The registry value `{"versions": [], "current": None}` that both readers
return when no persisted state exists. -/
def emptyRegistry : Registry := ⟨[], none⟩

/-- Encoding of the metrics dict as a JSON object (`json.dump` of the Python
dict of metric name to numeric value). -/
def metricsToJson (ms : List (String × ℚ)) : Json :=
  .obj (ms.map fun kv => (kv.1, .num kv.2))

/-- Encoding of one version entry, with the key order used by
`src/train/save_model.py` when it builds the entry. -/
def versionToJson (v : ModelVersion) : Json :=
  .obj [("version", .str v.version), ("saved_at", .str v.saved_at),
        ("metrics", metricsToJson v.metrics), ("model_path", .str v.model_path)]

/-- Encoding of the `current` pointer (`None` becomes JSON `null`). -/
def currentToJson : Option String → Json
  | none => .null
  | some c => .str c

/-- Encoding of the whole registry dict, with the key order of its
construction (`versions` first, then `current`). -/
def registryToJson (r : Registry) : Json :=
  .obj [("versions", .arr (r.versions.map versionToJson)),
        ("current", currentToJson r.current)]

/-- Read a JSON string where the reading code expects one. -/
def asStr : Option Json → Option String
  | some (.str s) => some s
  | _ => none

/-- Decode the fields of the metrics object, each value read as a number. -/
def metricFieldsOfJson : List (String × Json) → Option (List (String × ℚ))
  | [] => some []
  | kv :: rest =>
    match kv.2, metricFieldsOfJson rest with
    | .num q, some ms => some ((kv.1, q) :: ms)
    | _, _ => none

/-- Decode the metrics object back to the metrics dict. -/
def metricsOfJson : Json → Option (List (String × ℚ))
  | .obj fields => metricFieldsOfJson fields
  | _ => none

/-- Decode one version entry, reading the fields exactly as the serving and
rollback code read them (`v.get("version")`, `v.get("saved_at")`, ...).  A
shape the Python code would observe as a missing/mistyped field is `none`. -/
def versionOfJson : Json → Option ModelVersion
  | .obj fields =>
    match asStr (jsonLookup fields "version"), asStr (jsonLookup fields "saved_at"),
          (jsonLookup fields "metrics").bind metricsOfJson,
          asStr (jsonLookup fields "model_path") with
    | some ver, some sa, some ms, some mp => some ⟨ver, sa, ms, mp⟩
    | _, _, _, _ => none
  | _ => none

/-- Decode a list of version entries. -/
def versionsOfJson : List Json → Option (List ModelVersion)
  | [] => some []
  | j :: js =>
    match versionOfJson j, versionsOfJson js with
    | some v, some vs => some (v :: vs)
    | _, _ => none

/-- Decode the `current` pointer: `registry.get("current")` yields `None` both
for a JSON `null` and for a missing key. -/
def currentOfJson : Option Json → Option String
  | some (.str s) => some s
  | _ => none

/-- Decode a full registry dict (`registry.get("versions", [])` plus
`registry.get("current")`).  A shape the Python use sites could not read as a
version list is `none`. -/
def registryOfJson (j : Json) : Option Registry :=
  match j with
  | .obj fields =>
    match jsonLookup fields "versions" with
    | some (.arr vs) =>
      (versionsOfJson vs).map fun ws => ⟨ws, currentOfJson (jsonLookup fields "current")⟩
    | _ => none
  | _ => none

/-- The metadata file as seen through `json.load`: `none` when
`models/metadata.json` does not exist, otherwise the parsed JSON document. -/
abbrev MetaFile := Option Json

/-- Reader `_load_registry` of `src/serving/api_endpoints_only.py`: an absent file
yields the empty registry; otherwise the parsed document is read through the
`.get` accessors above (an unreadable shape degrades to the empty registry,
matching the `except`/default behaviour of the use sites). -/
def load_registry (f : MetaFile) : Registry :=
  match f with
  | none => emptyRegistry
  | some j => (registryOfJson j).getD emptyRegistry

/-- Writer `_save_registry`: `json.dump(registry, f, ...)` replaces the file content
with the serialization of the full registry state. -/
def save_registry (r : Registry) : MetaFile :=
  some (registryToJson r)

/-! ## Character-level serialization (`json.dump(..., indent=2, ensure_ascii=False)`)

For the write-atomicity analysis the metadata file is modelled as the list of
characters it holds.  The serializer below reproduces the `json` module's
indent-2 text format.  Numbers are printed as decimal literals (every Python
float that reaches the metrics dict is a decimal-representable rational in
this model); rationals with no finite decimal form fall back to a fraction
literal, a case no Python float produces. -/

/-- Indentation: `n` spaces. -/
def padChars (n : Nat) : List Char := List.replicate n ' '

/-- Hexadecimal digit, for `\uXXXX` escapes. -/
def hexDigit (n : Nat) : Char := "0123456789abcdef".toList.getD n '0'

/-- JSON string escaping of one character (`ensure_ascii=False` keeps
non-ASCII characters as they are). -/
def escapeChar (c : Char) : List Char :=
  if c = '"' then ['\\', '"']
  else if c = '\\' then ['\\', '\\']
  else if c = '\n' then ['\\', 'n']
  else if c = '\t' then ['\\', 't']
  else if c = '\r' then ['\\', 'r']
  else if c.toNat < 32 then ['\\', 'u', '0', '0', hexDigit (c.toNat / 16), hexDigit (c.toNat % 16)]
  else [c]

/-- A JSON string literal. -/
def quoteChars (s : String) : List Char :=
  '"' :: (s.toList.flatMap escapeChar) ++ ['"']

/-- Decimal literal for `num / 10 ^ e` with `e` fractional digits. -/
def decChars (num : Int) (e : Nat) : List Char :=
  let sign := if num < 0 then ['-'] else []
  let a := num.natAbs
  let fracRaw := (toString (a % 10 ^ e)).toList
  sign ++ (toString (a / 10 ^ e)).toList ++ '.' ::
    (List.replicate (e - fracRaw.length) '0' ++ fracRaw)

/-- Number literal: integers print without a decimal point, decimal rationals
with one. -/
def ratChars (q : ℚ) : List Char :=
  if q.den = 1 then (toString q.num).toList
  else
    match (List.range 30).find? (fun e => 10 ^ e % q.den = 0) with
    | some e => decChars (q.num * ((10 ^ e : ℕ) / q.den : ℕ)) e
    | none => (toString q.num).toList ++ '/' :: (toString q.den).toList

/-- Join serialized items with a separator. -/
def joinSep (sep : List Char) : List (List Char) → List Char
  | [] => []
  | [x] => x
  | x :: y :: rest => x ++ sep ++ joinSep sep (y :: rest)

/-- The indent-2 text format of `json.dump`, fuelled on nesting depth so that
the definition evaluates by kernel reduction.  `ind` is the enclosing
indentation level. -/
def dumpsF (fuel : Nat) (ind : Nat) (j : Json) : List Char :=
  match fuel, j with
  | 0, _ => []
  | _ + 1, .null => "null".toList
  | _ + 1, .bool b => if b then "true".toList else "false".toList
  | _ + 1, .num q => ratChars q
  | _ + 1, .str s => quoteChars s
  | fuel + 1, .arr xs =>
    match xs with
    | [] => ['[', ']']
    | _ :: _ =>
      '[' :: '\n' :: padChars (ind + 2) ++
        joinSep (',' :: '\n' :: padChars (ind + 2)) (xs.map (dumpsF fuel (ind + 2))) ++
        '\n' :: padChars ind ++ [']']
  | fuel + 1, .obj fields =>
    match fields with
    | [] => ['\x7b', '\x7d']
    | _ :: _ =>
      '\x7b' :: '\n' :: padChars (ind + 2) ++
        joinSep (',' :: '\n' :: padChars (ind + 2))
          (fields.map fun kv => quoteChars kv.1 ++ ':' :: ' ' :: dumpsF fuel (ind + 2) kv.2) ++
        '\n' :: padChars ind ++ ['\x7d']

/-- The characters `json.dump(registry, f, indent=2, ensure_ascii=False)`
writes for a registry document.  Registry documents nest to a fixed depth
(object / array / version object / metrics object / leaf), so fuel 8 always
suffices. -/
def save_registry_chars (r : Registry) : List Char :=
  dumpsF 8 0 (registryToJson r)

/-- The writer `_save_registry` under a failure partway through the write: `open(..., "w")`
has already truncated the file, and only the first `k` characters of the new
serialization were written before the failure.  (In
`src/serving/api_endpoints_only.py` the exception is then swallowed and only
logged.)  The result does not depend on the prior file content at all. -/
def save_registry_partial (r : Registry) (k : Nat) : List Char :=
  (save_registry_chars r).take k

/-- A one-version registry standing for previously persisted content. -/
def regV1 : Registry :=
  ⟨[⟨"v20250101000000", "2025-01-01T00:00:00Z", [("mae", 2)],
     "models/modelo_demanda_v20250101000000.joblib"⟩], some "v20250101000000"⟩

/-- The same registry with a second version appended and made current: the
state a subsequent save is asked to persist. -/
def regV2 : Registry :=
  ⟨[⟨"v20250101000000", "2025-01-01T00:00:00Z", [("mae", 2)],
     "models/modelo_demanda_v20250101000000.joblib"⟩,
    ⟨"v20250202000000", "2025-02-02T00:00:00Z", [("mae", 3)],
     "models/modelo_demanda_v20250202000000.joblib"⟩], some "v20250202000000"⟩

/-! ## Dates (pandas `Timestamp` values, at day resolution)

`pd.Timestamp.now().normalize()` and the parsed `Date` column are calendar
days; the `.dt` accessors used by the feature deriver are `month`,
`dayofweek`, `day` and `dayofyear`. -/

/-- A calendar day of the proleptic Gregorian calendar (year ≥ 1, as for every
representable pandas `Timestamp`). -/
structure Date where
  year : Nat
  month : Nat
  day : Nat
  deriving DecidableEq

/-- Serial day number (days since 0000-03-01), the standard civil-calendar
conversion; it orders dates chronologically. -/
def Date.serial (d : Date) : Nat :=
  let y := if d.month ≤ 2 then d.year - 1 else d.year
  let era := y / 400
  let yoe := y % 400
  let mp := (d.month + 9) % 12
  let doy := (153 * mp + 2) / 5 + (d.day - 1)
  let doe := yoe * 365 + yoe / 4 - yoe / 100 + doy
  era * 146097 + doe

/-- Accessor `.dt.dayofweek`: Monday = 0 ... Sunday = 6 (1970-01-01, serial 719468, was
a Thursday). -/
def Date.dayofweek (d : Date) : Nat := (d.serial + 2) % 7

/-- Gregorian leap-year rule. -/
def Date.isLeap (d : Date) : Bool :=
  d.year % 4 = 0 && (d.year % 100 != 0 || d.year % 400 = 0)

/-- Days of the year before month `m` in a common year. -/
def cumDaysBefore (m : Nat) : Nat :=
  [0, 0, 31, 59, 90, 120, 151, 181, 212, 243, 273, 304, 334].getD m 0

/-- Accessor `.dt.dayofyear` (1-366). -/
def Date.dayofyear (d : Date) : Nat :=
  cumDaysBefore d.month + d.day + (if 2 < d.month && d.isLeap then 1 else 0)

/-- Chronological comparison of two days. -/
def Date.before (a b : Date) : Bool := a.serial < b.serial

/-! ## DataFrames

A frame is the association list from column name to that column's cell
values, in pandas column order; all columns of a well-formed frame have the
same length (one cell per row).  A cell is a float (modelled as ℚ), a string,
a timestamp, or the missing-value sentinel (`NaN`/`NaT`, which pandas also
uses as the null date produced by `pd.to_datetime(..., errors="coerce")`). -/

/-- One cell of a DataFrame. -/
inductive Cell where
  | num (q : ℚ)
  | str (s : String)
  | date (d : Date)
  | nan
  deriving DecidableEq

/-- A DataFrame: columns in order, each with its list of cells. -/
abbrev Frame := List (String × List Cell)

/-- Column selection `df[c]` (column names of a real frame are unique; the
first match is the column). -/
def Frame.getCol (df : Frame) (c : String) : Option (List Cell) :=
  (df.find? fun kv => kv.1 = c).map (·.2)

/-- Membership test `c in df.columns`. -/
def Frame.hasCol (df : Frame) (c : String) : Bool :=
  df.any fun kv => kv.1 = c

/-- The column names, in order (`df.columns`). -/
def Frame.colNames (df : Frame) : List String := df.map Prod.fst

/-- Number of rows (`len(df)`): the length of the first column. -/
def Frame.nrows (df : Frame) : Nat :=
  match df with
  | [] => 0
  | kv :: _ => kv.2.length

/-- Column assignment `df[c] = vs`: an existing column is overwritten in
place, a new one is appended on the right. -/
def Frame.setCol (df : Frame) (c : String) (vs : List Cell) : Frame :=
  if df.hasCol c then df.map fun kv => if kv.1 = c then (c, vs) else kv
  else df ++ [(c, vs)]

/-- Effect of `fillna(0)` on one cell. -/
def fillnaZero (c : Cell) : Cell :=
  match c with
  | .nan => .num 0
  | c => c

/-- Assignment `df[cols] = df[cols].fillna(0)`: replace the missing-value sentinel by 0
in the named columns, leaving every other column untouched. -/
def Frame.fillnaCols (df : Frame) (cols : List String) : Frame :=
  df.map fun kv =>
    if cols.contains kv.1 then (kv.1, kv.2.map fillnaZero) else kv

/-! ## Feature deriver (`agregar_caracteristicas`,
`src/ingenieria_caracteristicas.py`)

`df.groupby(["Store ID", "Product ID"])["Units Sold"].shift(k)` keeps the
frame's existing row order: within each (store, product) group the `k`-step
lag at a row is the group's value `k` rows earlier in TABLE order (the
function never sorts).  Rows whose group key contains the missing-value
sentinel belong to no group (`groupby` drops NaN keys) and get NaN.  The
rolling-mean column shifts by one and then averages a window of up to 7
observations with `min_periods=1`, NaN observations skipped. -/

/-- Group key of row `i`: the (store, product) pair. -/
def keyOk (k : Cell × Cell) : Bool := !(k.1 == .nan) && !(k.2 == .nan)

/-- Indices of the earlier rows of the same (store, product) group as row `i`,
in table order. -/
def priorIdxs (keys : List (Cell × Cell)) (i : Nat) : List Nat :=
  (List.range i).filter fun j => keys.get? j = keys.get? i

/-- Value of `groupby(...)["Units Sold"].shift(k)` at row `i`. -/
def lagVal (keys : List (Cell × Cell)) (units : List Cell) (k i : Nat) : Cell :=
  match keys.get? i with
  | none => .nan
  | some key =>
    if keyOk key then
      let ps := priorIdxs keys i
      if k ≤ ps.length then (units.get? (ps.getD (ps.length - k) 0)).getD .nan
      else .nan
    else .nan

/-- Mean of a rolling window, skipping NaN; an empty or all-NaN window is NaN
(this is `min_periods=1`: at least one observed point). -/
def cellsMean (ws : List Cell) : Cell :=
  let qs := ws.filterMap fun c => match c with | .num q => some q | _ => none
  if qs.isEmpty then .nan else .num (qs.sum / qs.length)

/-- Value of `serie.shift(1).rolling(window=7, min_periods=1).mean()` at row `i`: the
mean of the up-to-7 latest strictly earlier rows of the group. -/
def rollVal (keys : List (Cell × Cell)) (units : List Cell) (i : Nat) : Cell :=
  match keys.get? i with
  | none => .nan
  | some key =>
    if keyOk key then
      let ps := priorIdxs keys i
      cellsMean ((ps.drop (ps.length - 7)).map fun j => (units.get? j).getD .nan)
    else .nan

/-- The full `k`-lag column. -/
def lagColL (keys : List (Cell × Cell)) (units : List Cell) (k : Nat) : List Cell :=
  (List.range units.length).map fun i => lagVal keys units k i

/-- The full rolling-mean column. -/
def rollColL (keys : List (Cell × Cell)) (units : List Cell) : List Cell :=
  (List.range units.length).map fun i => rollVal keys units i

/-- A `.dt` accessor applied to the `Date` column (`NaT` gives NaN). -/
def calendarCol (f : Date → Nat) (dates : List Cell) : List Cell :=
  dates.map fun c => match c with | .date d => .num (f d) | _ => .nan

/-- The `Date` column must be datetime-typed for `.dt` (dates or `NaT`). -/
def dateColOk (dates : List Cell) : Bool :=
  dates.all fun c => match c with | .date _ => true | .nan => true | _ => false

/-- The `Units Sold` column must be numeric for `rolling(...).mean()` (floats
or NaN). -/
def unitsColOk (units : List Cell) : Bool :=
  units.all fun c => match c with | .num _ => true | .nan => true | _ => false

/-- The four lag/rolling columns filled with 0 where history is missing. -/
def fillNames : List String :=
  ["ventas_lag_1", "ventas_lag_7", "ventas_lag_14", "media_movil_7d"]

/-- All eight columns the feature deriver writes. -/
def derivedNames : List String :=
  ["mes", "dia_semana", "dia_mes", "dia_anio",
   "ventas_lag_1", "ventas_lag_7", "ventas_lag_14", "media_movil_7d"]

/-- The column writes of `agregar_caracteristicas`, given the four input
columns it reads (the reads all happen against the argument frame: the
calendar and lag assignments touch none of the four source columns). -/
def agregarCore (df : Frame) (dates stores products units : List Cell) : Frame :=
  let keys := stores.zip products
  let d1 := df.setCol "mes" (calendarCol Date.month dates)
  let d2 := d1.setCol "dia_semana" (calendarCol Date.dayofweek dates)
  let d3 := d2.setCol "dia_mes" (calendarCol Date.day dates)
  let d4 := d3.setCol "dia_anio" (calendarCol Date.dayofyear dates)
  let d5 := d4.setCol "ventas_lag_1" (lagColL keys units 1)
  let d6 := d5.setCol "ventas_lag_7" (lagColL keys units 7)
  let d7 := d6.setCol "ventas_lag_14" (lagColL keys units 14)
  let d8 := d7.setCol "media_movil_7d" (rollColL keys units)
  d8.fillnaCols fillNames

/-- Function `agregar_caracteristicas`: the value computed by the feature deriver.  A
frame missing one of the four source columns, or whose `Date` / `Units Sold`
columns are not datetime / numeric typed, makes the Python function raise
(`KeyError` / `.dt` attribute error / rolling-mean dtype error): `none`. -/
def agregar_caracteristicas (df : Frame) : Option Frame :=
  match df.getCol "Date", df.getCol "Store ID", df.getCol "Product ID",
        df.getCol "Units Sold" with
  | some dates, some stores, some products, some units =>
    if dateColOk dates && unitsColOk units then
      some (agregarCore df dates stores products units)
    else none
  | _, _, _, _ => none

/-- Call-level view of `agregar_caracteristicas`: every `df[col] = ...` in the
source mutates the caller's frame in place and the function returns that same
object, so after a successful call the argument holds the same frame as the
return value.  The pair is (return value, argument after the call). -/
def agregar_caracteristicas_call (df : Frame) : Option (Frame × Frame) :=
  (agregar_caracteristicas df).map fun r => (r, r)

/-! ## The loaded pipeline, as the serving layer sees it

`_ensure_expected_columns` introspects
`model.named_steps.get("preprocesador").transformers_`: a list of
`(name, transformer, cols)` triples.  Only the name and the column list
matter to the serving code; an entry whose `cols` is not a list/tuple
contributes nothing (`none` below).  A model without that step, or whose
preprocessor has no `transformers_` attribute, is `transformers := none`.
`model.predict` either returns one float per row or raises (`none`). -/

/-- The loaded model. -/
structure SkModel where
  transformers : Option (List (String × Option (List String)))
  predictFn : Frame → Option (List ℚ)

/-- All columns the fitted preprocessor was fit against (`cols_expected`). -/
def colsExpectedOf (ts : List (String × Option (List String))) : List String :=
  ts.flatMap fun t => t.2.getD []

/-- ASCII lower-casing of one character (`str.lower()`; every transformer
name in this code base is ASCII). -/
def lowerAscii (c : Char) : Char :=
  if 'A' ≤ c && c ≤ 'Z' then Char.ofNat (c.toNat + 32) else c

/-- Whether `cs` begins with `pat`. -/
def startsWithChars : List Char → List Char → Bool
  | _, [] => true
  | [], _ :: _ => false
  | c :: cs, p :: ps => c = p && startsWithChars cs ps

/-- Test `name.lower().startswith("categor")`. -/
def nameStartsCategor (name : String) : Bool :=
  startsWithChars (name.toList.map lowerAscii) "categor".toList

/-- The columns of transformers whose name starts with "categor"
case-insensitively (`cat_cols`). -/
def catColsOf (ts : List (String × Option (List String))) : List String :=
  (ts.filter fun t => nameStartsCategor t.1).flatMap fun t => t.2.getD []

/-- The default injected for a missing expected column: the string "Unknown"
for categorical columns, numeric 0 otherwise. -/
def defaultCellFor (cats : List String) (c : String) : Cell :=
  if cats.contains c then .str "Unknown" else .num 0

/-- One iteration of the `for c in cols_expected` loop: inject the default
for a missing column, broadcast over all rows. -/
def ensureStep (cats : List String) (acc : Frame) (c : String) : Frame :=
  if acc.hasCol c then acc
  else acc.setCol c (List.replicate acc.nrows (defaultCellFor cats c))

/-- Function `_ensure_expected_columns`: every expected column missing from the frame
is added (broadcast over all rows) with its default; present columns are left
alone.  (The source mutates `df` in place and returns it.) -/
def ensure_expected_columns (df : Frame) (m : SkModel) : Frame :=
  match m.transformers with
  | none => df
  | some ts => (colsExpectedOf ts).foldl (ensureStep (catColsOf ts)) df

/-! ## The `/predict` request path -/

/-- One record of a `PredictionRequest`: field name to scalar, in JSON key
order (Python dict keys are unique). -/
abbrev Rec := List (String × Cell)

/-- Keep the first occurrence of each name, dropping later duplicates. -/
def dedupFirst (l : List String) : List String :=
  l.foldl (fun acc x => if acc.contains x then acc else acc ++ [x]) []

/-- Field lookup in a record. -/
def recLookup (r : Rec) (c : String) : Option Cell :=
  (r.find? fun kv => kv.1 = c).map (·.2)

/-- Construction `pd.DataFrame(request.records)`: columns are the record keys in order of
first appearance; a record missing a key contributes the missing-value
sentinel in that column. -/
def buildFrame (recs : List Rec) : Frame :=
  (dedupFirst (recs.flatMap fun r => r.map Prod.fst)).map fun c =>
    (c, recs.map fun r => (recLookup r c).getD .nan)

/-- Digits-only numeral. -/
def digitsToNat? (cs : List Char) : Option Nat :=
  if cs.isEmpty || !cs.all Char.isDigit then none
  else some (cs.foldl (fun n c => n * 10 + (c.toNat - 48)) 0)

/-- Days in a month of the Gregorian calendar. -/
def daysInMonth (y m : Nat) : Nat :=
  if m = 2 then (if Date.isLeap ⟨y, m, 1⟩ then 29 else 28)
  else if m = 4 || m = 6 || m = 9 || m = 11 then 30 else 31

/-- Validity of a year-month-day triple. -/
def validYMD (y m d : Nat) : Bool :=
  1 ≤ y && 1 ≤ m && m ≤ 12 && 1 ≤ d && d ≤ daysInMonth y m

/-- Split a character list at every dash. -/
def splitOnDash : List Char → List (List Char)
  | [] => [[]]
  | c :: cs =>
    let rest := splitOnDash cs
    if c = '-' then [] :: rest
    else
      match rest with
      | [] => [[c]]
      | g :: gs => (c :: g) :: gs

/-- ISO `YYYY-MM-DD` date strings, the format the repository's requests and
data files use.  (pandas accepts further formats; strings outside the
modelled format count as unparseable.) -/
def parseDateISO (s : String) : Option Date :=
  match splitOnDash s.toList with
  | [ys, ms, ds] =>
    match digitsToNat? ys, digitsToNat? ms, digitsToNat? ds with
    | some y, some m, some d => if validYMD y m d then some ⟨y, m, d⟩ else none
    | _, _, _ => none
  | _ => none

/-- Effect of `pd.to_datetime(..., errors="coerce")` on one cell: datetimes pass
through, parseable strings become dates, unparseable values become the null
date sentinel `NaT`.  (A numeric cell is read as a nanosecond offset from the
epoch; every offset below one day collapses to the epoch day modelled here.) -/
def toDatetimeCoerce (c : Cell) : Cell :=
  match c with
  | .date d => .date d
  | .nan => .nan
  | .str s => match parseDateISO s with | some d => .date d | none => .nan
  | .num _ => .date ⟨1970, 1, 1⟩

/-- The synonym table of `_normalize_input_columns`, in source order. -/
def synonymMapping : List (String × String) :=
  [("Store", "Store ID"), ("store", "Store ID"), ("StoreID", "Store ID"),
   ("store_id", "Store ID"), ("Store Id", "Store ID"),
   ("Product", "Product ID"), ("product", "Product ID"), ("ProductID", "Product ID"),
   ("product_id", "Product ID"),
   ("Units", "Units Sold"), ("UnitsSold", "Units Sold"), ("Units_Sold", "Units Sold"),
   ("units_sold", "Units Sold"), ("units", "Units Sold")]

/-- The dict `rename_map`: only synonyms that are present while their canonical name is
absent are renamed. -/
def renameMapFor (df : Frame) : List (String × String) :=
  synonymMapping.filter fun kv => df.hasCol kv.1 && !(df.hasCol kv.2)

/-- Renaming `df.rename(columns=...)`: each column name is mapped through the dict,
values and column positions unchanged. -/
def Frame.renameCols (df : Frame) (m : List (String × String)) : Frame :=
  df.map fun kv =>
    match m.find? fun p => p.1 = kv.1 with
    | some p => (p.2, kv.2)
    | none => kv

/-- Fill a column with a broadcast default if it is absent, the shape of every
`if "<c>" not in df.columns: df["<c>"] = <default>` statement in the
handler. -/
def fillIfAbsent (df : Frame) (c : String) (v : Cell) : Frame :=
  if df.hasCol c then df else df.setCol c (List.replicate df.nrows v)

/-- Function `_normalize_input_columns`: rename the applicable synonyms, then fill the
canonical sold-units / store id / product id columns with their sentinel
defaults (0 / "UNKNOWN" / "UNKNOWN") if still absent. -/
def normalize_input_columns (df0 : Frame) : Frame :=
  fillIfAbsent
    (fillIfAbsent
      (fillIfAbsent (df0.renameCols (renameMapFor df0)) "Units Sold" (.num 0))
      "Store ID" (.str "UNKNOWN"))
    "Product ID" (.str "UNKNOWN")

/-- The `Date` handling of the `/predict` handler: default the column to
today (`pd.Timestamp.now().normalize()`) if absent, else coerce it to
datetime. -/
def predictDateStep (today : Date) (df0 : Frame) : Frame :=
  if df0.hasCol "Date" then
    df0.setCol "Date" (((df0.getCol "Date").getD []).map toDatetimeCoerce)
  else df0.setCol "Date" (List.replicate df0.nrows (.date today))

/-- The frame the `/predict` handler builds before feature derivation, in
source order: build the frame from the records; handle `Date`; pre-fill
`Units Sold` with 0 if absent; then run `_normalize_input_columns`. -/
def buildInputFrame (today : Date) (recs : List Rec) : Frame :=
  normalize_input_columns
    (fillIfAbsent (predictDateStep today (buildFrame recs)) "Units Sold" (.num 0))

/-- An HTTPException: status code plus detail string. -/
structure HErr where
  status : Nat
  detail : String
  deriving DecidableEq

/-- The `/predict` success payload: `{"predictions": [...], "n": ...}`. -/
structure PredictResp where
  predictions : List ℚ
  n : Nat
  deriving DecidableEq

/-- The `/predict` handler.  The boolean records whether `MODEL.predict` was
invoked.  In source order: 503 if no model is loaded; 400 if `records` is
empty; build and normalize the frame; derive features (an exception here is
not caught by the handler: FastAPI turns it into a generic 500); inject
expected columns; predict (an exception becomes a 400 whose detail is the
exception text, abstracted here as a fixed string). -/
def predictEndpoint (model : Option SkModel) (today : Date) (recs : List Rec) :
    Except HErr PredictResp × Bool :=
  match model with
  | none => (.error ⟨503, "Modelo no cargado"⟩, false)
  | some m =>
    if recs.isEmpty then (.error ⟨400, "`records` vacío"⟩, false)
    else
      match agregar_caracteristicas (buildInputFrame today recs) with
      | none => (.error ⟨500, "Internal Server Error"⟩, false)
      | some df2 =>
        match m.predictFn (ensure_expected_columns df2 m) with
        | some preds => (.ok ⟨preds, preds.length⟩, true)
        | none => (.error ⟨400, "prediction raised"⟩, true)

/-! ## Model loader and the activate/reload endpoints

The loader state is the process-wide `MODEL` plus the file system it reads:
the metadata file and the serialized artifacts.  `joblib.load` of an artifact
either deserializes a model or raises; a path not listed does not exist.
Path resolution against `PROJECT_ROOT` is absorbed into the artifact lookup.
The model type is a parameter: nothing in the loader inspects the model. -/

/-- A model artifact on disk: deserializes to a model, or raises on load. -/
inductive Artifact (M : Type) where
  | ok (m : M)
  | raises
  deriving DecidableEq

/-- The loader's world: metadata file, artifact store, the legacy
`MODEL_PATH`, and the in-memory `MODEL` (absent at cold start). -/
structure LoaderWorld (M : Type) where
  metadataFile : MetaFile
  artifacts : List (String × Artifact M)
  legacyPath : String
  MODEL : Option M

/-- Artifact lookup by path (`none` = the file does not exist). -/
def lookupArtifact {M : Type} (arts : List (String × Artifact M)) (p : String) :
    Option (Artifact M) :=
  (arts.find? fun kv => kv.1 = p).map (·.2)

/-- The legacy fallback at the end of `_load_model_from_registry`: try
`MODEL_PATH` if it exists; a deserialization error there is logged and the
function returns `None`. -/
def legacyLoad {M : Type} (w : LoaderWorld M) : Option M :=
  match lookupArtifact w.artifacts w.legacyPath with
  | some (.ok m) => some m
  | _ => none

/-- The `for v in registry["versions"]` loop of `_load_model_from_registry`:
at the first entry matching `current`, an existing artifact is loaded (a
deserialization error returns `None` immediately, with no fallback), while a
dangling `model_path` logs a warning and the loop continues; falling off the
end reaches the legacy fallback. -/
def scanVersions {M : Type} (w : LoaderWorld M) (cur : String) :
    List ModelVersion → Option M
  | [] => legacyLoad w
  | v :: vs =>
    if v.version = cur then
      match lookupArtifact w.artifacts v.model_path with
      | some (.ok m) => some m
      | some .raises => none
      | none => scanVersions w cur vs
    else scanVersions w cur vs

/-- Function `_load_model_from_registry`: prefer the registry's `current` entry (an
empty-string `current` is falsy in Python and also falls back), else the
legacy path, else no model. -/
def load_model_from_registry {M : Type} (w : LoaderWorld M) : Option M :=
  let reg := load_registry w.metadataFile
  match reg.current with
  | some cur => if cur = "" then legacyLoad w else scanVersions w cur reg.versions
  | none => legacyLoad w

/-- Function `reload_model`: unconditionally overwrite the process-wide `MODEL` with
whatever `_load_model_from_registry` produced. -/
def reload_model {M : Type} (w : LoaderWorld M) : LoaderWorld M :=
  { w with MODEL := load_model_from_registry w }

/-- The `/model/activate` endpoint: 404 if the version is not in the registry;
otherwise persist `current := version`, reload, and report 500 if no model is
loaded afterwards.  Returns the new world and the HTTP outcome (`.ok` carries
the activated version). -/
def model_activate {M : Type} (w : LoaderWorld M) (version : String) :
    LoaderWorld M × Except HErr String :=
  let reg := load_registry w.metadataFile
  match reg.versions.find? fun v => v.version = version with
  | none => (w, .error ⟨404, "version not found"⟩)
  | some _ =>
    let w1 := { w with metadataFile := save_registry { reg with current := some version } }
    let w2 := reload_model w1
    match w2.MODEL with
    | none => (w2, .error ⟨500, "failed to load requested model"⟩)
    | some _ => (w2, .ok version)

/-- The `/model/reload` endpoint: reload, 500 if nothing is loaded after. -/
def model_reload {M : Type} (w : LoaderWorld M) : LoaderWorld M × Except HErr Unit :=
  let w1 := reload_model w
  match w1.MODEL with
  | none => (w1, .error ⟨500, "no model loaded after reload"⟩)
  | some _ => (w1, .ok ())

/-! ## The rollback tool (`src/train/rollback.py`)

Its registry reader/writer match the API's on well-formed files (its reader
does not catch parse errors, a difference immaterial here since the file is
modelled as parsed content).  The observable outcome of each command is the
message it prints / the boolean it returns. -/

/-- What a rollback command reports. -/
inductive RbOutcome where
  | noVersions
  | currentNotInRegistry
  | noPrevious
  | notFound (v : String)
  | modelFileMissing (p : String)
  | ok (v : String)
  deriving DecidableEq

/-- The rollback tool's world: the metadata file plus which model artifact
files exist (`shutil.copy2` creates/overwrites the destination). -/
structure RollbackWorld where
  metadataFile : MetaFile
  modelFiles : List String

/-- Command `set_current`: "Versión no encontrada" if the target version is absent;
"Archivo de modelo no encontrado" if its artifact file is missing; otherwise
copy the artifact over `<modelos_dir>/modelo_demanda_v1.joblib`, set
`current := target` and persist. -/
def set_current (w : RollbackWorld) (modelosDir : String) (target : String) :
    RollbackWorld × RbOutcome :=
  let reg := load_registry w.metadataFile
  match reg.versions.find? fun v => v.version = target with
  | none => (w, .notFound target)
  | some vr =>
    if w.modelFiles.contains vr.model_path then
      let dest := modelosDir ++ "/modelo_demanda_v1.joblib"
      let files := if w.modelFiles.contains dest then w.modelFiles else w.modelFiles ++ [dest]
      ({ metadataFile := save_registry { reg with current := some target },
         modelFiles := files }, .ok target)
    else (w, .modelFileMissing vr.model_path)

/-- Command `rollback_previous`: "No hay versiones para hacer rollback" when the
version list is empty or `current` is unset; "La versión actual no está en el
registro" when `current` matches no entry; "No hay versión anterior" when
`current` is the first entry; otherwise `set_current` on the entry just
before `current`. -/
def rollback_previous (w : RollbackWorld) (modelosDir : String) :
    RollbackWorld × RbOutcome :=
  let reg := load_registry w.metadataFile
  if reg.versions.isEmpty || reg.current.isNone then (w, .noVersions)
  else
    match reg.current with
    | none => (w, .noVersions)
    | some cur =>
      match reg.versions.findIdx? fun v => v.version = cur with
      | none => (w, .currentNotInRegistry)
      | some 0 => (w, .noPrevious)
      | some (i + 1) =>
        set_current w modelosDir ((reg.versions.getD i ⟨"", "", [], ""⟩).version)

/-! ## Concrete states used by counterexamples and witnesses -/

/-- A registry whose only (current) version points at an artifact that fails
to deserialize. -/
def c1Reg : Registry :=
  ⟨[⟨"v2", "2025-02-02T00:00:00Z", [], "models/m2.joblib"⟩], some "v2"⟩

/-- A loader world with a model (7) in memory, whose registry-current artifact
raises on `joblib.load` and whose legacy path does not exist. -/
def c1World : LoaderWorld Nat :=
  { metadataFile := save_registry c1Reg,
    artifacts := [("models/m2.joblib", .raises)],
    legacyPath := "models/modelo_demanda_v1.joblib",
    MODEL := some 7 }

/-- A rollback world whose registry holds exactly one version, which is
current. -/
def rbOneVersion : RollbackWorld :=
  { metadataFile :=
      save_registry ⟨[⟨"v1", "2025-01-01T00:00:00Z", [], "models/m1.joblib"⟩], some "v1"⟩,
    modelFiles := ["models/m1.joblib"] }

/-- A rollback world whose registry has a version but no `current`. -/
def rbNoCurrent : RollbackWorld :=
  { metadataFile :=
      save_registry ⟨[⟨"v1", "2025-01-01T00:00:00Z", [], "models/m1.joblib"⟩], none⟩,
    modelFiles := ["models/m1.joblib"] }

/-- A two-row frame of one (store, product) group in ascending date order with
sold-units 10 then 12 (the spec's lag example). -/
def c3df : Frame :=
  [("Date", [.date ⟨2022, 1, 1⟩, .date ⟨2022, 1, 2⟩]),
   ("Store ID", [.str "S1", .str "S1"]),
   ("Product ID", [.str "P1", .str "P1"]),
   ("Units Sold", [.num 10, .num 12])]

/-- The feature deriver's output on `c3df`. -/
def c3R : Frame := (agregar_caracteristicas c3df).getD []

/-- A one-row frame with the four source columns. -/
def c8df : Frame :=
  [("Date", [.date ⟨2022, 1, 1⟩]), ("Store ID", [.str "S1"]),
   ("Product ID", [.str "P1"]), ("Units Sold", [.num 10])]

/-- The feature deriver's output on `c8df`. -/
def c8R : Frame := (agregar_caracteristicas c8df).getD []

end Eva04

namespace Eva04

/-! ## Round-trip lemmas for the registry codec (claim C5) -/

theorem metricFieldsOfJson_map (ms : List (String × ℚ)) :
    metricFieldsOfJson (ms.map fun kv => (kv.1, Json.num kv.2)) = some ms := by
  induction ms with
  | nil => rfl
  | cons kv rest ih => simp [metricFieldsOfJson, ih]

theorem metricsOfJson_metricsToJson (ms : List (String × ℚ)) :
    metricsOfJson (metricsToJson ms) = some ms := by
  simp [metricsToJson, metricsOfJson, metricFieldsOfJson_map]

theorem versionOfJson_versionToJson (v : ModelVersion) :
    versionOfJson (versionToJson v) = some v := by
  simp [versionToJson, versionOfJson, jsonLookup, asStr, List.find?,
    metricsOfJson_metricsToJson]

theorem versionsOfJson_map (vs : List ModelVersion) :
    versionsOfJson (vs.map versionToJson) = some vs := by
  induction vs with
  | nil => rfl
  | cons v rest ih => simp [versionsOfJson, versionOfJson_versionToJson, ih]

theorem registryOfJson_registryToJson (r : Registry) :
    registryOfJson (registryToJson r) = some r := by
  simp only [registryToJson, registryOfJson, jsonLookup, List.find?]
  simp [versionsOfJson_map]
  cases h : r.current with
  | none => simp [currentToJson, currentOfJson]; rw [← h]
  | some c => simp [currentToJson, currentOfJson]; rw [← h]

theorem load_registry_save_registry (r : Registry) :
    load_registry (save_registry r) = r := by
  simp [load_registry, save_registry, registryOfJson_registryToJson]

/-- C5: persisting any registry state (N versions plus the `current` pointer)
with the registry writer and reading it back with the registry reader
reproduces the same versions in the same order and the same `current`. -/
theorem c5_registry_roundtrip (r : Registry) :
    load_registry (save_registry r) = r :=
  load_registry_save_registry r

/-! ## Claim C6: the registry write is not write-to-temp-then-replace -/

/-- C6 counterexample: `_save_registry` writes in place (no temp file, no
replace).  If a save of `regV2` over a file previously holding `regV1` fails
right after `open(..., "w")` truncated the file (zero characters written), the
persisted file holds neither the prior content nor the new serialization — the
prior state is not preserved, refuting the all-or-nothing claim. -/
theorem c6_counterexample :
    save_registry_partial regV2 0 ≠ save_registry_chars regV1 ∧
      save_registry_partial regV2 0 ≠ save_registry_chars regV2 := by
  constructor <;> decide

/-- C6 amended: the registry write truncates the file and streams the new
serialization in place, so a write that fails partway leaves a (possibly
empty) prefix of the NEW serialization, not the prior content: the complete
serialization is never empty, a failure at the truncation point leaves an
empty file, and what a partial write leaves is exactly the written prefix of
the new serialization (independent of the prior content). -/
theorem c6_save_truncates_in_place :
    (∀ r : Registry, save_registry_chars r ≠ []) ∧
      (∀ r : Registry, save_registry_partial r 0 = []) ∧
      (∀ (r : Registry) (k : Nat),
        save_registry_partial r k ++ (save_registry_chars r).drop k = save_registry_chars r) := by
  refine ⟨fun r => ?_, fun r => rfl, fun r k => List.take_append_drop k _⟩
  simp [save_registry_chars, registryToJson, dumpsF]

/-! ## Claim C10: no-model short-circuit of `/predict` -/

/-- C10: while no model is loaded, `/predict` answers 503 ("Modelo no
cargado") for every payload — the empty batch included — and never invokes the
model: the no-model check precedes all input validation and normalization, so
the outcome does not depend on the records at all. -/
theorem c10_no_model_always_503 (today : Date) (recs : List Rec) :
    predictEndpoint none today recs = (.error ⟨503, "Modelo no cargado"⟩, false) :=
  rfl

/-! ## Claim C9: empty batch -/

/-- C9 counterexample: an empty batch sent while no model is loaded is
answered with 503, not with the claimed client error 400 (the no-model check
runs first), so "every prediction request whose records are empty gets 400"
fails as stated. -/
theorem c9_counterexample :
    predictEndpoint none ⟨2026, 1, 10⟩ [] = (.error ⟨503, "Modelo no cargado"⟩, false) ∧
      (503 : Nat) ≠ 400 := by
  exact ⟨rfl, by decide⟩

/-- C9 amended: while a model is loaded, a prediction request with an empty
records batch is rejected with the client error 400 ("`records` vacío") and
the loaded model's predict function is never invoked (and with no model
loaded the model is likewise never invoked, the answer being 503). -/
theorem c9_empty_batch_400 (m : SkModel) (today : Date) :
    predictEndpoint (some m) today [] = (.error ⟨400, "`records` vacío"⟩, false) ∧
      ∀ recs : List Rec, (predictEndpoint none today recs).2 = false :=
  ⟨rfl, fun _ => rfl⟩

/-! ## Claim C2: column-name normalization in `/predict` -/

/-- C2 counterexample: the claim — that a value sent under a known sold-units
synonym is mapped onto the canonical column and never replaced by the default
— is false at the concrete request
`[{"Date": "2022-01-01", "store": "S1", "product": "P1", "units_sold": 5}]`.
The handler pre-fills `Units Sold` with 0 BEFORE `_normalize_input_columns`
runs, and the rename map only renames a synonym whose canonical target is
absent, so `units_sold → Units Sold` is suppressed: the canonical sold-units
column holds the sentinel 0, not the client's 5, which survives only in the
stale, unconsumed `units_sold` column.  The store and product synonyms, by
contrast, are renamed and the client's values survive. -/
theorem c2_units_synonym_ignored :
    (buildInputFrame ⟨2025, 6, 1⟩
        [[("Date", .str "2022-01-01"), ("store", .str "S1"),
          ("product", .str "P1"), ("units_sold", .num 5)]]).getCol "Units Sold"
      = some [.num 0] ∧
    (buildInputFrame ⟨2025, 6, 1⟩
        [[("Date", .str "2022-01-01"), ("store", .str "S1"),
          ("product", .str "P1"), ("units_sold", .num 5)]]).getCol "Store ID"
      = some [.str "S1"] ∧
    (buildInputFrame ⟨2025, 6, 1⟩
        [[("Date", .str "2022-01-01"), ("store", .str "S1"),
          ("product", .str "P1"), ("units_sold", .num 5)]]).getCol "Product ID"
      = some [.str "P1"] ∧
    (buildInputFrame ⟨2025, 6, 1⟩
        [[("Date", .str "2022-01-01"), ("store", .str "S1"),
          ("product", .str "P1"), ("units_sold", .num 5)]]).getCol "units_sold"
      = some [.num 5] ∧
    Cell.num 5 ≠ Cell.num 0 := by
  refine ⟨?_, ?_, ?_, ?_, ?_⟩ <;> decide

/-! ## Claim C1: failed explicit reload/activation and the previous model -/

theorem scanVersions_raises {M : Type} (w : LoaderWorld M) (cur : String)
    (vr : ModelVersion) (vs : List ModelVersion)
    (hfind : vs.find? (fun x => x.version = cur) = some vr)
    (hart : lookupArtifact w.artifacts vr.model_path = some .raises) :
    scanVersions w cur vs = none := by
  induction vs with
  | nil => simp [List.find?] at hfind
  | cons v rest ih =>
    by_cases h : v.version = cur
    · have hv : v = vr := by
        rw [List.find?_cons_of_pos _ (by simpa using h)] at hfind
        exact Option.some_injective _ hfind
      subst hv
      simp [scanVersions, h, hart]
    · rw [List.find?_cons_of_neg _ (by simpa using h)] at hfind
      simp [scanVersions, h, ih hfind]

/-- C1 counterexample: a loader world with model 7 active whose registry's
`current` version points at an artifact that raises on deserialization.
Activating that version surfaces a 500 to the caller, but `LoadedModel` does
NOT remain in its prior state: the previously loaded model is gone. -/
theorem c1_counterexample :
    c1World.MODEL = some 7 ∧
      (model_activate c1World "v2").2 = .error ⟨500, "failed to load requested model"⟩ ∧
      (model_activate c1World "v2").1.MODEL ≠ some 7 := by
  exact ⟨rfl, rfl, by decide⟩

/-- C1 amended: when the artifact selected by an explicit activation fails to
deserialize, the failure IS surfaced to the caller (500), but `reload_model`
unconditionally overwrites the process-wide model: after the failed
activation `LoadedModel` is absent even if a model was previously active (and
equally, whenever `/model/reload` reports its 500 failure, the in-memory
model has been overwritten with absent). -/
theorem c1_failed_load_drops_model {M : Type} (w : LoaderWorld M) (v : String)
    (vr : ModelVersion) (hv : ¬ v = "")
    (hfind : (load_registry w.metadataFile).versions.find? (fun x => x.version = v) = some vr)
    (hart : lookupArtifact w.artifacts vr.model_path = some .raises) :
    (model_activate w v).2 = .error ⟨500, "failed to load requested model"⟩ ∧
      (model_activate w v).1.MODEL = none ∧
      ∀ w' : LoaderWorld M,
        (model_reload w').2 = .error ⟨500, "no model loaded after reload"⟩ →
          (model_reload w').1.MODEL = none := by
  have hload :
      load_model_from_registry
        ({ w with metadataFile :=
            save_registry { load_registry w.metadataFile with current := some v } } :
          LoaderWorld M) = none := by
    simp only [load_model_from_registry, load_registry_save_registry]
    simp only [hv, if_false]
    exact scanVersions_raises _ v vr _ hfind hart
  refine ⟨?_, ?_, ?_⟩
  · simp [model_activate, hfind, model_reload, reload_model, hload]
  · simp [model_activate, hfind, model_reload, reload_model, hload]
  · intro w' herr
    cases hm : (reload_model w').MODEL with
    | none => simp [model_reload, hm]
    | some m => simp [model_reload, hm] at herr

/-- C1 witness: the amended theorem applied to the concrete world
`c1World`. -/
theorem c1_witness :
    (model_activate c1World "v2").2 = .error ⟨500, "failed to load requested model"⟩ ∧
      (model_activate c1World "v2").1.MODEL = none :=
  ⟨(c1_failed_load_drops_model c1World "v2" ⟨"v2", "2025-02-02T00:00:00Z", [], "models/m2.joblib"⟩
      (by decide) (by decide) (by decide)).1,
   (c1_failed_load_drops_model c1World "v2" ⟨"v2", "2025-02-02T00:00:00Z", [], "models/m2.joblib"⟩
      (by decide) (by decide) (by decide)).2.1⟩

/-! ## Claim C4: unknown-version activation and no-previous rollback -/

/-- C4: activating a version absent from the registry returns 404 and leaves
the whole state — registry file, `current`, loaded model — unchanged; the
rollback tool, asked to roll back when `current` is the first and only entry,
or when `current` is unset, reports its not-available message and leaves the
state unchanged. -/
theorem c4_unknown_version_and_rollback_guards :
    (∀ (M : Type) (w : LoaderWorld M) (v : String),
        (load_registry w.metadataFile).versions.find? (fun x => x.version = v) = none →
        model_activate w v = (w, .error ⟨404, "version not found"⟩)) ∧
      (∀ (w : RollbackWorld) (d : String) (v0 : ModelVersion),
          (load_registry w.metadataFile).versions = [v0] →
          (load_registry w.metadataFile).current = some v0.version →
          rollback_previous w d = (w, .noPrevious)) ∧
      (∀ (w : RollbackWorld) (d : String),
          (load_registry w.metadataFile).current = none →
          rollback_previous w d = (w, .noVersions)) := by
  refine ⟨fun M w v hfind => ?_, fun w d v0 hvs hcur => ?_, fun w d hcur => ?_⟩
  · simp [model_activate, hfind]
  · simp [rollback_previous, hvs, hcur, List.findIdx?]
  · simp [rollback_previous, hcur]

/-- C4 witness: the three guard branches at concrete states. -/
theorem c4_witness :
    model_activate c1World "nope" = (c1World, .error ⟨404, "version not found"⟩) ∧
      rollback_previous rbOneVersion "models" = (rbOneVersion, .noPrevious) ∧
      rollback_previous rbNoCurrent "models" = (rbNoCurrent, .noVersions) :=
  ⟨c4_unknown_version_and_rollback_guards.1 Nat c1World "nope" (by decide),
   c4_unknown_version_and_rollback_guards.2.1 rbOneVersion "models"
     ⟨"v1", "2025-01-01T00:00:00Z", [], "models/m1.joblib"⟩ (by decide) (by decide),
   c4_unknown_version_and_rollback_guards.2.2 rbNoCurrent "models" (by decide)⟩

/-! ## Frame lemmas -/

theorem getCol_nil (c : String) : Frame.getCol [] c = none := rfl

theorem getCol_cons (kv : String × List Cell) (rest : Frame) (c : String) :
    Frame.getCol (kv :: rest) c = if kv.1 = c then some kv.2 else Frame.getCol rest c := by
  by_cases h : kv.1 = c <;> simp [Frame.getCol, List.find?, h]

theorem hasCol_nil (c : String) : Frame.hasCol [] c = false := rfl

theorem hasCol_cons (kv : String × List Cell) (rest : Frame) (c : String) :
    Frame.hasCol (kv :: rest) c = if kv.1 = c then true else Frame.hasCol rest c := by
  by_cases h : kv.1 = c <;> simp [Frame.hasCol, h]

theorem getCol_none_iff (df : Frame) (c : String) :
    df.getCol c = none ↔ df.hasCol c = false := by
  induction df with
  | nil => simp [getCol_nil, hasCol_nil]
  | cons kv rest ih =>
    by_cases h : kv.1 = c <;> simp [getCol_cons, hasCol_cons, h, ih]

theorem getCol_map_replace (df : Frame) (c : String) (vs : List Cell)
    (h : df.hasCol c = true) :
    Frame.getCol (df.map fun kv => if kv.1 = c then (c, vs) else kv) c = some vs := by
  induction df with
  | nil => simp [Frame.hasCol] at h
  | cons kv rest ih =>
    by_cases hk : kv.1 = c
    · simp [getCol_cons, hk]
    · rw [hasCol_cons] at h
      simp only [hk, if_false] at h
      simp [getCol_cons, hk, ih h]

theorem getCol_map_replace_ne (df : Frame) (c c' : String) (vs : List Cell)
    (h : c' ≠ c) :
    Frame.getCol (df.map fun kv => if kv.1 = c then (c, vs) else kv) c' =
      df.getCol c' := by
  induction df with
  | nil => rfl
  | cons kv rest ih =>
    by_cases hk : kv.1 = c
    · have hne : ¬ (c = c') := fun hcc => h hcc.symm
      simp only [List.map_cons, if_pos hk, getCol_cons]
      simp [hne, hk, ih]
    · simp only [List.map_cons, if_neg hk, getCol_cons]
      by_cases hk' : kv.1 = c' <;> simp [hk', ih]

theorem getCol_append_single_self (df : Frame) (c : String) (vs : List Cell)
    (h : df.hasCol c = false) :
    Frame.getCol (df ++ [(c, vs)]) c = some vs := by
  induction df with
  | nil => simp [getCol_cons]
  | cons kv rest ih =>
    rw [hasCol_cons] at h
    by_cases hk : kv.1 = c
    · simp [hk] at h
    · simp only [hk, if_false] at h
      simp [List.cons_append, getCol_cons, hk, ih h]

theorem getCol_append_single_ne (df : Frame) (c c' : String) (vs : List Cell)
    (h : c' ≠ c) :
    Frame.getCol (df ++ [(c, vs)]) c' = df.getCol c' := by
  induction df with
  | nil =>
    have : ¬ c = c' := fun hcc => h hcc.symm
    simp [getCol_cons, getCol_nil, this]
  | cons kv rest ih =>
    by_cases hk : kv.1 = c' <;> simp [List.cons_append, getCol_cons, hk, ih]

theorem getCol_setCol_self (df : Frame) (c : String) (vs : List Cell) :
    (df.setCol c vs).getCol c = some vs := by
  unfold Frame.setCol
  by_cases h : df.hasCol c
  · simp only [h, if_true]
    exact getCol_map_replace df c vs h
  · simp only [Bool.not_eq_true] at h
    simp only [h, Bool.false_eq_true, if_false]
    exact getCol_append_single_self df c vs h

theorem getCol_setCol_ne (df : Frame) (c c' : String) (vs : List Cell) (h : c' ≠ c) :
    (df.setCol c vs).getCol c' = df.getCol c' := by
  unfold Frame.setCol
  by_cases hc : df.hasCol c
  · simp only [hc, if_true]
    exact getCol_map_replace_ne df c c' vs h
  · simp only [Bool.not_eq_true] at hc
    simp only [hc, Bool.false_eq_true, if_false]
    exact getCol_append_single_ne df c c' vs h

theorem hasCol_eq_isSome (df : Frame) (c : String) :
    df.hasCol c = (df.getCol c).isSome := by
  induction df with
  | nil => rfl
  | cons kv rest ih =>
    by_cases h : kv.1 = c <;> simp [hasCol_cons, getCol_cons, h, ih]

theorem hasCol_setCol_self (df : Frame) (c : String) (vs : List Cell) :
    (df.setCol c vs).hasCol c = true := by
  rw [hasCol_eq_isSome, getCol_setCol_self]
  rfl

theorem hasCol_setCol_ne (df : Frame) (c c' : String) (vs : List Cell) (h : c' ≠ c) :
    (df.setCol c vs).hasCol c' = df.hasCol c' := by
  rw [hasCol_eq_isSome, hasCol_eq_isSome, getCol_setCol_ne df c c' vs h]

theorem nrows_setCol_replicate (df : Frame) (c : String) (x : Cell)
    (h : df.hasCol c = false) :
    (df.setCol c (List.replicate df.nrows x)).nrows = df.nrows := by
  unfold Frame.setCol
  simp only [h, Bool.false_eq_true, if_false]
  cases df with
  | nil => simp [Frame.nrows]
  | cons kv rest => simp [Frame.nrows, List.cons_append]

theorem ensureStep_nrows (cats : List String) (acc : Frame) (c : String) :
    (ensureStep cats acc c).nrows = acc.nrows := by
  unfold ensureStep
  by_cases h : acc.hasCol c
  · simp [h]
  · simp only [Bool.not_eq_true] at h
    simp only [h, Bool.false_eq_true, if_false]
    exact nrows_setCol_replicate acc c _ h

theorem foldl_ensureStep_preserves (cats : List String) (L : List String)
    (acc : Frame) (c : String) (h : acc.hasCol c = true) :
    (L.foldl (ensureStep cats) acc).getCol c = acc.getCol c := by
  induction L generalizing acc with
  | nil => rfl
  | cons d L' ih =>
    simp only [List.foldl_cons]
    by_cases hd : acc.hasCol d
    · rw [show ensureStep cats acc d = acc by simp [ensureStep, hd]]
      exact ih acc h
    · have hne : c ≠ d := fun hcd => hd (hcd ▸ h)
      have hstep : ensureStep cats acc d =
          acc.setCol d (List.replicate acc.nrows (defaultCellFor cats d)) := by
        simp only [ensureStep, Bool.not_eq_true] at *
        simp [hd]
      rw [hstep, ih _ (by rw [hasCol_setCol_ne _ _ _ _ hne]; exact h),
        getCol_setCol_ne _ _ _ _ hne]

theorem foldl_ensureStep_injects (cats : List String) (L : List String)
    (acc : Frame) (c : String) (habs : acc.hasCol c = false) (hmem : c ∈ L) :
    (L.foldl (ensureStep cats) acc).getCol c =
      some (List.replicate acc.nrows (defaultCellFor cats c)) := by
  induction L generalizing acc with
  | nil => cases hmem
  | cons d L' ih =>
    simp only [List.foldl_cons]
    by_cases hd : d = c
    · subst hd
      have hstep : ensureStep cats acc d =
          acc.setCol d (List.replicate acc.nrows (defaultCellFor cats d)) := by
        simp [ensureStep, habs]
      rw [hstep,
        foldl_ensureStep_preserves cats L' _ d (hasCol_setCol_self acc d _),
        getCol_setCol_self]
    · have hmem' : c ∈ L' := by
        rcases List.mem_cons.mp hmem with h | h
        · exact absurd h.symm hd
        · exact h
      by_cases hhas : acc.hasCol d
      · rw [show ensureStep cats acc d = acc by simp [ensureStep, hhas]]
        exact ih acc habs hmem'
      · have hstep : ensureStep cats acc d =
            acc.setCol d (List.replicate acc.nrows (defaultCellFor cats d)) := by
          simp only [Bool.not_eq_true] at hhas
          simp [ensureStep, hhas]
        have hne : c ≠ d := fun hcd => hd hcd.symm
        have habs' : (acc.setCol d (List.replicate acc.nrows (defaultCellFor cats d))).hasCol c
            = false := by rw [hasCol_setCol_ne _ _ _ _ hne]; exact habs
        rw [hstep, ih _ habs' hmem', nrows_setCol_replicate acc d _ (by
          simp only [Bool.not_eq_true] at hhas; exact hhas)]

/-! ## Claim C7: expected-column reconciliation -/

/-- C7: for every column the loaded model's fitted preprocessor expects, the
inference service leaves it alone if the request's (feature-derived) frame
already has it, and otherwise injects it over all rows with the string
"Unknown" when it belongs to the preprocessor's categorical group and numeric
0 otherwise — so batches missing expected columns are still scored. -/
theorem c7_missing_expected_columns_defaulted (df : Frame) (m : SkModel)
    (ts : List (String × Option (List String))) (c : String)
    (hts : m.transformers = some ts) (hc : c ∈ colsExpectedOf ts) :
    (df.hasCol c = true → (ensure_expected_columns df m).getCol c = df.getCol c) ∧
      (df.hasCol c = false →
        (ensure_expected_columns df m).getCol c =
          some (List.replicate df.nrows
            (if (catColsOf ts).contains c then Cell.str "Unknown" else Cell.num 0))) := by
  constructor
  · intro h
    simp only [ensure_expected_columns, hts]
    exact foldl_ensureStep_preserves _ _ df c h
  · intro h
    simp only [ensure_expected_columns, hts]
    rw [foldl_ensureStep_injects _ _ df c h hc]
    rfl

/-- C7 witness: a model whose preprocessor expects the categorical columns
"Category" and "Region" and the numeric column "Price"; a one-row frame
carrying only "Region" gets "Unknown" injected for "Category", 0 for "Price",
and its own "Region" value kept. -/
theorem c7_witness :
    (ensure_expected_columns [("Region", [.str "North"])]
        ⟨some [("categoricas", some ["Category", "Region"]), ("numericas", some ["Price"])],
         fun _ => none⟩).getCol "Category" = some [.str "Unknown"] ∧
      (ensure_expected_columns [("Region", [.str "North"])]
          ⟨some [("categoricas", some ["Category", "Region"]), ("numericas", some ["Price"])],
           fun _ => none⟩).getCol "Price" = some [.num 0] ∧
      (ensure_expected_columns [("Region", [.str "North"])]
          ⟨some [("categoricas", some ["Category", "Region"]), ("numericas", some ["Price"])],
           fun _ => none⟩).getCol "Region" = some [.str "North"] := by
  refine ⟨?_, ?_, ?_⟩
  · rw [(c7_missing_expected_columns_defaulted _ _
      [("categoricas", some ["Category", "Region"]), ("numericas", some ["Price"])]
      "Category" rfl (by decide)).2 (by decide)]
    decide
  · rw [(c7_missing_expected_columns_defaulted _ _
      [("categoricas", some ["Category", "Region"]), ("numericas", some ["Price"])]
      "Price" rfl (by decide)).2 (by decide)]
    decide
  · rw [(c7_missing_expected_columns_defaulted _ _
      [("categoricas", some ["Category", "Region"]), ("numericas", some ["Price"])]
      "Region" rfl (by decide)).1 (by decide)]
    decide

/-! ## Lemmas about the feature deriver's column writes -/

theorem getCol_fillnaCols_mem (df : Frame) (cols : List String) (c : String)
    (h : cols.contains c = true) :
    (df.fillnaCols cols).getCol c = (df.getCol c).map (List.map fillnaZero) := by
  induction df with
  | nil => rfl
  | cons kv rest ih =>
    by_cases hk : kv.1 = c
    · simp only [Frame.fillnaCols, List.map_cons, hk, h, if_true]
      simp [getCol_cons, hk]
    · by_cases hm : cols.contains kv.1 <;>
        simp only [Frame.fillnaCols, List.map_cons, hm, if_true, if_false,
          Bool.false_eq_true] <;>
      · rw [getCol_cons, getCol_cons, if_neg hk, if_neg hk]
        exact ih

theorem getCol_fillnaCols_not_mem (df : Frame) (cols : List String) (c : String)
    (h : cols.contains c = false) :
    (df.fillnaCols cols).getCol c = df.getCol c := by
  induction df with
  | nil => rfl
  | cons kv rest ih =>
    by_cases hk : kv.1 = c
    · simp only [Frame.fillnaCols, List.map_cons, hk, h, Bool.false_eq_true, if_false]
      simp [getCol_cons, hk]
    · by_cases hm : cols.contains kv.1 <;>
        simp only [Frame.fillnaCols, List.map_cons, hm, if_true, if_false,
          Bool.false_eq_true] <;>
      · rw [getCol_cons, getCol_cons, if_neg hk, if_neg hk]
        exact ih

theorem agregarCore_getCol_mes (df : Frame) (dates stores products units : List Cell) :
    (agregarCore df dates stores products units).getCol "mes" =
      some (calendarCol Date.month dates) := by
  unfold agregarCore
  rw [getCol_fillnaCols_not_mem _ _ _ (by decide),
    getCol_setCol_ne _ _ _ _ (by decide), getCol_setCol_ne _ _ _ _ (by decide),
    getCol_setCol_ne _ _ _ _ (by decide), getCol_setCol_ne _ _ _ _ (by decide),
    getCol_setCol_ne _ _ _ _ (by decide), getCol_setCol_ne _ _ _ _ (by decide),
    getCol_setCol_ne _ _ _ _ (by decide), getCol_setCol_self]

theorem agregarCore_getCol_dia_semana (df : Frame)
    (dates stores products units : List Cell) :
    (agregarCore df dates stores products units).getCol "dia_semana" =
      some (calendarCol Date.dayofweek dates) := by
  unfold agregarCore
  rw [getCol_fillnaCols_not_mem _ _ _ (by decide),
    getCol_setCol_ne _ _ _ _ (by decide), getCol_setCol_ne _ _ _ _ (by decide),
    getCol_setCol_ne _ _ _ _ (by decide), getCol_setCol_ne _ _ _ _ (by decide),
    getCol_setCol_ne _ _ _ _ (by decide), getCol_setCol_ne _ _ _ _ (by decide),
    getCol_setCol_self]

theorem agregarCore_getCol_dia_mes (df : Frame)
    (dates stores products units : List Cell) :
    (agregarCore df dates stores products units).getCol "dia_mes" =
      some (calendarCol Date.day dates) := by
  unfold agregarCore
  rw [getCol_fillnaCols_not_mem _ _ _ (by decide),
    getCol_setCol_ne _ _ _ _ (by decide), getCol_setCol_ne _ _ _ _ (by decide),
    getCol_setCol_ne _ _ _ _ (by decide), getCol_setCol_ne _ _ _ _ (by decide),
    getCol_setCol_ne _ _ _ _ (by decide), getCol_setCol_self]

theorem agregarCore_getCol_dia_anio (df : Frame)
    (dates stores products units : List Cell) :
    (agregarCore df dates stores products units).getCol "dia_anio" =
      some (calendarCol Date.dayofyear dates) := by
  unfold agregarCore
  rw [getCol_fillnaCols_not_mem _ _ _ (by decide),
    getCol_setCol_ne _ _ _ _ (by decide), getCol_setCol_ne _ _ _ _ (by decide),
    getCol_setCol_ne _ _ _ _ (by decide), getCol_setCol_ne _ _ _ _ (by decide),
    getCol_setCol_self]

theorem agregarCore_getCol_lag1 (df : Frame) (dates stores products units : List Cell) :
    (agregarCore df dates stores products units).getCol "ventas_lag_1" =
      some ((lagColL (stores.zip products) units 1).map fillnaZero) := by
  unfold agregarCore
  rw [getCol_fillnaCols_mem _ _ _ (by decide),
    getCol_setCol_ne _ _ _ _ (by decide), getCol_setCol_ne _ _ _ _ (by decide),
    getCol_setCol_ne _ _ _ _ (by decide), getCol_setCol_self]
  rfl

theorem agregarCore_getCol_lag7 (df : Frame) (dates stores products units : List Cell) :
    (agregarCore df dates stores products units).getCol "ventas_lag_7" =
      some ((lagColL (stores.zip products) units 7).map fillnaZero) := by
  unfold agregarCore
  rw [getCol_fillnaCols_mem _ _ _ (by decide),
    getCol_setCol_ne _ _ _ _ (by decide), getCol_setCol_ne _ _ _ _ (by decide),
    getCol_setCol_self]
  rfl

theorem agregarCore_getCol_lag14 (df : Frame) (dates stores products units : List Cell) :
    (agregarCore df dates stores products units).getCol "ventas_lag_14" =
      some ((lagColL (stores.zip products) units 14).map fillnaZero) := by
  unfold agregarCore
  rw [getCol_fillnaCols_mem _ _ _ (by decide),
    getCol_setCol_ne _ _ _ _ (by decide), getCol_setCol_self]
  rfl

theorem agregarCore_getCol_media (df : Frame) (dates stores products units : List Cell) :
    (agregarCore df dates stores products units).getCol "media_movil_7d" =
      some ((rollColL (stores.zip products) units).map fillnaZero) := by
  unfold agregarCore
  rw [getCol_fillnaCols_mem _ _ _ (by decide), getCol_setCol_self]
  rfl

theorem agregarCore_getCol_other (df : Frame) (dates stores products units : List Cell)
    (c : String) (hc : c ∉ derivedNames) :
    (agregarCore df dates stores products units).getCol c = df.getCol c := by
  simp only [derivedNames, List.mem_cons, List.not_mem_nil, or_false, not_or] at hc
  obtain ⟨h1, h2, h3, h4, h5, h6, h7, h8⟩ := hc
  unfold agregarCore
  rw [getCol_fillnaCols_not_mem _ _ _
      (by simp [fillNames, List.elem_eq_mem, h5, h6, h7, h8]),
    getCol_setCol_ne _ _ _ _ h8, getCol_setCol_ne _ _ _ _ h7,
    getCol_setCol_ne _ _ _ _ h6, getCol_setCol_ne _ _ _ _ h5,
    getCol_setCol_ne _ _ _ _ h4, getCol_setCol_ne _ _ _ _ h3,
    getCol_setCol_ne _ _ _ _ h2, getCol_setCol_ne _ _ _ _ h1]

theorem agregar_eq_some (df : Frame) (dates stores products units : List Cell)
    (hD : df.getCol "Date" = some dates) (hS : df.getCol "Store ID" = some stores)
    (hP : df.getCol "Product ID" = some products)
    (hU : df.getCol "Units Sold" = some units)
    (hok : (dateColOk dates && unitsColOk units) = true) :
    agregar_caracteristicas df = some (agregarCore df dates stores products units) := by
  unfold agregar_caracteristicas
  rw [hD, hS, hP, hU]
  simp [hok]

theorem lagColL_get? (keys : List (Cell × Cell)) (units : List Cell) (k i : Nat)
    (hi : i < units.length) :
    (lagColL keys units k).get? i = some (lagVal keys units k i) := by
  unfold lagColL
  rw [List.get?_eq_getElem?, List.getElem?_map, List.getElem?_range hi]
  rfl

theorem rollColL_get? (keys : List (Cell × Cell)) (units : List Cell) (i : Nat)
    (hi : i < units.length) :
    (rollColL keys units).get? i = some (rollVal keys units i) := by
  unfold rollColL
  rw [List.get?_eq_getElem?, List.getElem?_map, List.getElem?_range hi]
  rfl

theorem filterMap_numCell (qs : List ℚ) :
    (List.filterMap (fun c => match c with | Cell.num q => some q | _ => none)
      (qs.map Cell.num)) = qs := by
  induction qs with
  | nil => rfl
  | cons q rest ih => simp [List.filterMap_cons, ih]

theorem get?_map_cell (f : Cell → Cell) (l : List Cell) (i : Nat) :
    (l.map f).get? i = (l.get? i).map f := by
  rw [List.get?_eq_getElem?, List.get?_eq_getElem?, List.getElem?_map]

/-! ## Claim C3: lag and rolling features -/

/-- C3 counterexample: the feature deriver never sorts by date; its group lags
follow the TABLE row order.  In a two-row group whose dates are stored in
reverse chronological order (table row 0 dated 2022-01-02 with 10 units,
table row 1 dated 2022-01-01 with 20 units), taking the group in chronological
order as the claim states would give lag-1 values [20, 0] (row 1 is the
chronologically first row, so its lag is 0, and row 0, chronologically second,
would look back at row 1's 20); the code instead produces [0, 10], lagging by
table position. -/
theorem c3_counterexample :
    (agregar_caracteristicas
        [("Date", [.date ⟨2022, 1, 2⟩, .date ⟨2022, 1, 1⟩]),
         ("Store ID", [.str "S1", .str "S1"]),
         ("Product ID", [.str "P1", .str "P1"]),
         ("Units Sold", [.num 10, .num 20])]).bind
        (fun r => r.getCol "ventas_lag_1") = some [.num 0, .num 10] ∧
      Date.before ⟨2022, 1, 1⟩ ⟨2022, 1, 2⟩ = true ∧
      some [Cell.num 0, Cell.num 10] ≠ some [Cell.num 20, Cell.num 0] := by
  refine ⟨?_, ?_, ?_⟩ <;> decide

/-- C3 amended: for every input table, within each (store, product) group the
deriver works in the table's existing row order (chronological only when the
table is already date-sorted, as the training pipeline's cleaned table is):
lag-1/lag-7/lag-14 at a row equal the group's sold-units value 1/7/14 rows
earlier in table order, the rolling-mean feature is the mean of the up-to-7
latest strictly prior group rows (minimum 1 observed point, the row's own
value never included), and the columns are 0 wherever insufficient history
exists: each lag-k column is 0 at every row with fewer than k prior group
rows (the shift-NaN filled by `fillna(0)`), and the rolling mean is 0 at a
row with no prior group row at all — so a group's first row gets 0 in all
four columns, and the second group row's lag-1 is the first group row's
value, as the instantiation in the witness shows. -/
theorem c3_lag_rolling_row_order (df r : Frame)
    (dates stores products units : List Cell) (i : Nat) (key : Cell × Cell)
    (hr : agregar_caracteristicas df = some r)
    (hD : df.getCol "Date" = some dates) (hS : df.getCol "Store ID" = some stores)
    (hP : df.getCol "Product ID" = some products)
    (hU : df.getCol "Units Sold" = some units)
    (hi : i < units.length)
    (hkey : (stores.zip products).get? i = some key) (hvalid : keyOk key = true) :
    (∀ q : ℚ, 1 ≤ (priorIdxs (stores.zip products) i).length →
        units.get? ((priorIdxs (stores.zip products) i).getD
            ((priorIdxs (stores.zip products) i).length - 1) 0) = some (.num q) →
        (r.getCol "ventas_lag_1").bind (fun col => col.get? i) = some (.num q)) ∧
      (∀ q : ℚ, 7 ≤ (priorIdxs (stores.zip products) i).length →
          units.get? ((priorIdxs (stores.zip products) i).getD
              ((priorIdxs (stores.zip products) i).length - 7) 0) = some (.num q) →
          (r.getCol "ventas_lag_7").bind (fun col => col.get? i) = some (.num q)) ∧
      (∀ q : ℚ, 14 ≤ (priorIdxs (stores.zip products) i).length →
          units.get? ((priorIdxs (stores.zip products) i).getD
              ((priorIdxs (stores.zip products) i).length - 14) 0) = some (.num q) →
          (r.getCol "ventas_lag_14").bind (fun col => col.get? i) = some (.num q)) ∧
      ((priorIdxs (stores.zip products) i).length < 1 →
        (r.getCol "ventas_lag_1").bind (fun col => col.get? i) = some (.num 0)) ∧
      ((priorIdxs (stores.zip products) i).length < 7 →
        (r.getCol "ventas_lag_7").bind (fun col => col.get? i) = some (.num 0)) ∧
      ((priorIdxs (stores.zip products) i).length < 14 →
        (r.getCol "ventas_lag_14").bind (fun col => col.get? i) = some (.num 0)) ∧
      (priorIdxs (stores.zip products) i = [] →
        (r.getCol "ventas_lag_1").bind (fun col => col.get? i) = some (.num 0) ∧
          (r.getCol "ventas_lag_7").bind (fun col => col.get? i) = some (.num 0) ∧
          (r.getCol "ventas_lag_14").bind (fun col => col.get? i) = some (.num 0) ∧
          (r.getCol "media_movil_7d").bind (fun col => col.get? i) = some (.num 0)) ∧
      (∀ qs : List ℚ,
          ((priorIdxs (stores.zip products) i).drop
              ((priorIdxs (stores.zip products) i).length - 7)).map
            (fun j => (units.get? j).getD .nan) = qs.map Cell.num →
          qs ≠ [] →
          (r.getCol "media_movil_7d").bind (fun col => col.get? i) =
            some (.num (qs.sum / qs.length))) := by
  simp only [agregar_caracteristicas, hD, hS, hP, hU] at hr
  split at hr
  case isFalse => exact absurd hr (by simp)
  case isTrue hok =>
  have hcore := Option.some.inj hr
  subst hcore
  refine ⟨?_, ?_, ?_, ?_, ?_, ?_, ?_, ?_⟩
  · intro q hlen hget
    rw [agregarCore_getCol_lag1, Option.some_bind, get?_map_cell,
      lagColL_get? _ _ _ _ hi]
    simp only [lagVal, hkey, hvalid, if_true, if_pos hlen, hget, Option.getD_some,
      Option.map_some']
    rfl
  · intro q hlen hget
    rw [agregarCore_getCol_lag7, Option.some_bind, get?_map_cell,
      lagColL_get? _ _ _ _ hi]
    simp only [lagVal, hkey, hvalid, if_true, if_pos hlen, hget, Option.getD_some,
      Option.map_some']
    rfl
  · intro q hlen hget
    rw [agregarCore_getCol_lag14, Option.some_bind, get?_map_cell,
      lagColL_get? _ _ _ _ hi]
    simp only [lagVal, hkey, hvalid, if_true, if_pos hlen, hget, Option.getD_some,
      Option.map_some']
    rfl
  · intro hlt
    rw [agregarCore_getCol_lag1, Option.some_bind, get?_map_cell,
      lagColL_get? _ _ _ _ hi]
    simp only [lagVal, hkey, hvalid, if_true, Option.map_some']
    rw [if_neg (by omega)]
    rfl
  · intro hlt
    rw [agregarCore_getCol_lag7, Option.some_bind, get?_map_cell,
      lagColL_get? _ _ _ _ hi]
    simp only [lagVal, hkey, hvalid, if_true, Option.map_some']
    rw [if_neg (by omega)]
    rfl
  · intro hlt
    rw [agregarCore_getCol_lag14, Option.some_bind, get?_map_cell,
      lagColL_get? _ _ _ _ hi]
    simp only [lagVal, hkey, hvalid, if_true, Option.map_some']
    rw [if_neg (by omega)]
    rfl
  · intro hps
    refine ⟨?_, ?_, ?_, ?_⟩
    · rw [agregarCore_getCol_lag1, Option.some_bind, get?_map_cell,
        lagColL_get? _ _ _ _ hi]
      simp only [lagVal, hkey, hvalid, if_true, hps, List.length_nil,
        Option.map_some']
      rw [if_neg (by decide)]
      rfl
    · rw [agregarCore_getCol_lag7, Option.some_bind, get?_map_cell,
        lagColL_get? _ _ _ _ hi]
      simp only [lagVal, hkey, hvalid, if_true, hps, List.length_nil,
        Option.map_some']
      rw [if_neg (by decide)]
      rfl
    · rw [agregarCore_getCol_lag14, Option.some_bind, get?_map_cell,
        lagColL_get? _ _ _ _ hi]
      simp only [lagVal, hkey, hvalid, if_true, hps, List.length_nil,
        Option.map_some']
      rw [if_neg (by decide)]
      rfl
    · rw [agregarCore_getCol_media, Option.some_bind, get?_map_cell,
        rollColL_get? _ _ _ hi]
      simp only [rollVal, hkey, hvalid, if_true, hps, List.length_nil,
        Option.map_some', List.drop_nil, List.map_nil]
      rfl
  · intro qs hwin hne
    rw [agregarCore_getCol_media, Option.some_bind, get?_map_cell,
      rollColL_get? _ _ _ hi]
    simp only [rollVal, hkey, hvalid, if_true]
    rw [hwin]
    simp only [cellsMean, filterMap_numCell]
    rw [if_neg (by simpa using hne)]
    rfl

/-- C3 witness: on the spec's example — one group in ascending date order with
sold-units [10, 12] — the second row's lag-1 equals the first row's value
(10), the second row (one prior group row, insufficient history for lag-7 and
lag-14) gets 0 in lag-7 and lag-14, and the first row (no prior group row)
gets 0 in lag-1, lag-7, lag-14 and the rolling mean. -/
theorem c3_witness :
    (c3R.getCol "ventas_lag_1").bind (fun col => col.get? 1) = some (.num 10) ∧
      (c3R.getCol "ventas_lag_7").bind (fun col => col.get? 1) = some (.num 0) ∧
      (c3R.getCol "ventas_lag_14").bind (fun col => col.get? 1) = some (.num 0) ∧
      (c3R.getCol "ventas_lag_1").bind (fun col => col.get? 0) = some (.num 0) ∧
      (c3R.getCol "ventas_lag_7").bind (fun col => col.get? 0) = some (.num 0) ∧
      (c3R.getCol "ventas_lag_14").bind (fun col => col.get? 0) = some (.num 0) ∧
      (c3R.getCol "media_movil_7d").bind (fun col => col.get? 0) = some (.num 0) := by
  have h1 := c3_lag_rolling_row_order c3df c3R
    [.date ⟨2022, 1, 1⟩, .date ⟨2022, 1, 2⟩] [.str "S1", .str "S1"]
    [.str "P1", .str "P1"] [.num 10, .num 12] 1 (.str "S1", .str "P1")
    rfl rfl rfl rfl rfl (by decide) (by decide) (by decide)
  have h0 := c3_lag_rolling_row_order c3df c3R
    [.date ⟨2022, 1, 1⟩, .date ⟨2022, 1, 2⟩] [.str "S1", .str "S1"]
    [.str "P1", .str "P1"] [.num 10, .num 12] 0 (.str "S1", .str "P1")
    rfl rfl rfl rfl rfl (by decide) (by decide) (by decide)
  have hz := h0.2.2.2.2.2.2.1 (by decide)
  exact ⟨h1.1 10 (by decide) (by decide),
    h1.2.2.2.2.1 (by decide), h1.2.2.2.2.2.1 (by decide),
    hz.1, hz.2.1, hz.2.2.1, hz.2.2.2⟩

/-! ## Claim C8: in-place mutation and idempotence of the feature deriver -/

theorem colNames_map_of_fst (f : String × List Cell → String × List Cell)
    (df : Frame) (h : ∀ kv, (f kv).1 = kv.1) :
    Frame.colNames (df.map f) = Frame.colNames df := by
  induction df with
  | nil => rfl
  | cons kv rest ih =>
    show (f kv).1 :: Frame.colNames (rest.map f) = kv.1 :: Frame.colNames rest
    rw [h kv, ih]

theorem colNames_setCol (df : Frame) (c : String) (vs : List Cell) :
    (df.setCol c vs).colNames =
      if df.hasCol c then df.colNames else df.colNames ++ [c] := by
  unfold Frame.setCol
  by_cases h : df.hasCol c
  · simp only [h, if_true]
    exact colNames_map_of_fst _ df fun kv => by
      by_cases hk : kv.1 = c <;> simp [hk]
  · simp [h, Frame.colNames]

theorem colNames_fillnaCols (df : Frame) (cols : List String) :
    (df.fillnaCols cols).colNames = df.colNames := by
  unfold Frame.fillnaCols
  exact colNames_map_of_fst _ df fun kv => by split <;> rfl

theorem mem_colNames_iff_hasCol (df : Frame) (c : String) :
    c ∈ Frame.colNames df ↔ df.hasCol c = true := by
  induction df with
  | nil => simp [Frame.colNames, hasCol_nil]
  | cons kv rest ih =>
    show c ∈ kv.1 :: Frame.colNames rest ↔ _
    rw [hasCol_cons]
    by_cases h : kv.1 = c
    · simp [h]
    · rw [if_neg h, List.mem_cons, ← ih]
      constructor
      · rintro (h1 | h2)
        · exact absurd h1.symm h
        · exact h2
      · exact Or.inr

theorem getCol_none_of_not_mem (df : Frame) (c : String) (h : c ∉ df.colNames) :
    df.getCol c = none := by
  rw [getCol_none_iff]
  rcases hh : df.hasCol c with _ | _
  · rfl
  · exact absurd ((mem_colNames_iff_hasCol df c).mpr hh) h

theorem frame_ext (df1 df2 : Frame) (hn : df1.colNames = df2.colNames)
    (hnd : df2.colNames.Nodup) (hcols : ∀ c, df1.getCol c = df2.getCol c) :
    df1 = df2 := by
  induction df1 generalizing df2 with
  | nil =>
    cases df2 with
    | nil => rfl
    | cons kv2 rest2 => exact absurd hn (by simp [Frame.colNames])
  | cons kv rest ih =>
    cases df2 with
    | nil => exact absurd hn (by simp [Frame.colNames])
    | cons kv2 rest2 =>
      obtain ⟨n1, v1⟩ := kv
      obtain ⟨n2, v2⟩ := kv2
      have hname : n1 = n2 ∧ Frame.colNames rest = Frame.colNames rest2 := by
        simpa [Frame.colNames] using hn
      obtain ⟨hn12, hrestn⟩ := hname
      subst hn12
      have hval : v1 = v2 := by
        have h1 := hcols n1
        rw [getCol_cons, getCol_cons] at h1
        simpa using h1
      subst hval
      have hnd2 : (Frame.colNames rest2).Nodup ∧ n1 ∉ Frame.colNames rest2 := by
        have := hnd
        rw [show Frame.colNames ((n1, v1) :: rest2) = n1 :: Frame.colNames rest2 from rfl,
          List.nodup_cons] at this
        exact ⟨this.2, this.1⟩
      have hrest : ∀ c, Frame.getCol rest c = Frame.getCol rest2 c := by
        intro c
        by_cases hc : n1 = c
        · subst hc
          rw [getCol_none_of_not_mem rest n1 (hrestn ▸ hnd2.2),
            getCol_none_of_not_mem rest2 n1 hnd2.2]
        · have h1 := hcols c
          rw [getCol_cons, getCol_cons, if_neg hc, if_neg hc] at h1
          exact h1
      rw [ih rest2 hrestn hnd2.1 hrest]

theorem colNames_agregarCore_of_present (x : Frame)
    (dates stores products units : List Cell)
    (h1 : x.hasCol "mes" = true) (h2 : x.hasCol "dia_semana" = true)
    (h3 : x.hasCol "dia_mes" = true) (h4 : x.hasCol "dia_anio" = true)
    (h5 : x.hasCol "ventas_lag_1" = true) (h6 : x.hasCol "ventas_lag_7" = true)
    (h7 : x.hasCol "ventas_lag_14" = true) (h8 : x.hasCol "media_movil_7d" = true) :
    (agregarCore x dates stores products units).colNames = x.colNames := by
  unfold agregarCore
  rw [colNames_fillnaCols,
    colNames_setCol, if_pos (by
      rw [hasCol_setCol_ne _ _ _ _ (by decide), hasCol_setCol_ne _ _ _ _ (by decide),
        hasCol_setCol_ne _ _ _ _ (by decide), hasCol_setCol_ne _ _ _ _ (by decide),
        hasCol_setCol_ne _ _ _ _ (by decide), hasCol_setCol_ne _ _ _ _ (by decide),
        hasCol_setCol_ne _ _ _ _ (by decide)]
      exact h8),
    colNames_setCol, if_pos (by
      rw [hasCol_setCol_ne _ _ _ _ (by decide), hasCol_setCol_ne _ _ _ _ (by decide),
        hasCol_setCol_ne _ _ _ _ (by decide), hasCol_setCol_ne _ _ _ _ (by decide),
        hasCol_setCol_ne _ _ _ _ (by decide), hasCol_setCol_ne _ _ _ _ (by decide)]
      exact h7),
    colNames_setCol, if_pos (by
      rw [hasCol_setCol_ne _ _ _ _ (by decide), hasCol_setCol_ne _ _ _ _ (by decide),
        hasCol_setCol_ne _ _ _ _ (by decide), hasCol_setCol_ne _ _ _ _ (by decide),
        hasCol_setCol_ne _ _ _ _ (by decide)]
      exact h6),
    colNames_setCol, if_pos (by
      rw [hasCol_setCol_ne _ _ _ _ (by decide), hasCol_setCol_ne _ _ _ _ (by decide),
        hasCol_setCol_ne _ _ _ _ (by decide), hasCol_setCol_ne _ _ _ _ (by decide)]
      exact h5),
    colNames_setCol, if_pos (by
      rw [hasCol_setCol_ne _ _ _ _ (by decide), hasCol_setCol_ne _ _ _ _ (by decide),
        hasCol_setCol_ne _ _ _ _ (by decide)]
      exact h4),
    colNames_setCol, if_pos (by
      rw [hasCol_setCol_ne _ _ _ _ (by decide), hasCol_setCol_ne _ _ _ _ (by decide)]
      exact h3),
    colNames_setCol, if_pos (by
      rw [hasCol_setCol_ne _ _ _ _ (by decide)]
      exact h2),
    colNames_setCol, if_pos h1]

theorem colNames_setCol_nodup (df : Frame) (c : String) (vs : List Cell)
    (h : (Frame.colNames df).Nodup) : (Frame.colNames (df.setCol c vs)).Nodup := by
  rw [colNames_setCol]
  by_cases hc : df.hasCol c
  · simpa [hc] using h
  · simp only [hc, Bool.false_eq_true, if_false]
    rw [List.nodup_append]
    refine ⟨h, List.nodup_singleton c, ?_⟩
    intro a ha hb
    rw [List.mem_singleton] at hb
    subst hb
    exact absurd ((mem_colNames_iff_hasCol df a).mp ha) (by simp [hc])

theorem colNames_agregarCore_nodup (x : Frame)
    (dates stores products units : List Cell)
    (h : (Frame.colNames x).Nodup) :
    (Frame.colNames (agregarCore x dates stores products units)).Nodup := by
  unfold agregarCore
  rw [colNames_fillnaCols]
  exact colNames_setCol_nodup _ _ _ (colNames_setCol_nodup _ _ _
    (colNames_setCol_nodup _ _ _ (colNames_setCol_nodup _ _ _
      (colNames_setCol_nodup _ _ _ (colNames_setCol_nodup _ _ _
        (colNames_setCol_nodup _ _ _ (colNames_setCol_nodup _ _ _ h)))))))

/-- C8 counterexample: the feature deriver is not side-effect free.  Its
column assignments mutate the caller's frame in place (the returned frame is
the argument object), so after a successful call on the one-row frame `c8df`
the argument no longer holds its original value: it has gained the eight
derived columns. -/
theorem c8_counterexample :
    (agregar_caracteristicas_call c8df).map (fun p => p.2) ≠ some c8df ∧
      (agregar_caracteristicas_call c8df).isSome = true := by
  constructor <;> decide

/-- C8 amended: the feature deriver mutates its input table in place (after a
successful call the argument and the result are the same frame), but it is
idempotent as the claim states: applying it again to an already-derived table
succeeds and returns that table unchanged — the lag/rolling columns are
recomputed from the untouched source columns and overwritten with identical
values, with no double-shifting.  (Real DataFrames have pairwise distinct
column names, the `Nodup` hypothesis.) -/
theorem c8_mutates_in_place_but_idempotent (df r rr : Frame)
    (hnd : (Frame.colNames df).Nodup)
    (hcall : agregar_caracteristicas_call df = some (r, rr)) :
    rr = r ∧ agregar_caracteristicas r = some r := by
  unfold agregar_caracteristicas_call at hcall
  cases hag : agregar_caracteristicas df with
  | none => rw [hag] at hcall; cases hcall
  | some r0 =>
    rw [hag, Option.map_some'] at hcall
    have hp := Option.some.inj hcall
    rw [Prod.mk.injEq] at hp
    obtain ⟨h1, h2⟩ := hp
    rw [h1] at hag
    refine ⟨h2.symm.trans h1, ?_⟩
    cases hD : df.getCol "Date" with
    | none => simp [agregar_caracteristicas, hD] at hag
    | some dates =>
    cases hS : df.getCol "Store ID" with
    | none => simp [agregar_caracteristicas, hD, hS] at hag
    | some stores =>
    cases hP : df.getCol "Product ID" with
    | none => simp [agregar_caracteristicas, hD, hS, hP] at hag
    | some products =>
    cases hU : df.getCol "Units Sold" with
    | none => simp [agregar_caracteristicas, hD, hS, hP, hU] at hag
    | some units =>
    simp only [agregar_caracteristicas, hD, hS, hP, hU] at hag
    split at hag
    case isFalse => exact absurd hag (by simp)
    case isTrue hok =>
    have hc := Option.some.inj hag
    have hD' : Frame.getCol r "Date" = some dates := by
      rw [← hc, agregarCore_getCol_other _ _ _ _ _ _ (by decide)]
      exact hD
    have hS' : Frame.getCol r "Store ID" = some stores := by
      rw [← hc, agregarCore_getCol_other _ _ _ _ _ _ (by decide)]
      exact hS
    have hP' : Frame.getCol r "Product ID" = some products := by
      rw [← hc, agregarCore_getCol_other _ _ _ _ _ _ (by decide)]
      exact hP
    have hU' : Frame.getCol r "Units Sold" = some units := by
      rw [← hc, agregarCore_getCol_other _ _ _ _ _ _ (by decide)]
      exact hU
    have h2nd := agregar_eq_some r dates stores products units hD' hS' hP' hU' hok
    have heq : agregarCore r dates stores products units = r := by
      apply frame_ext
      · exact colNames_agregarCore_of_present r dates stores products units
          (by rw [← hc, hasCol_eq_isSome, agregarCore_getCol_mes]; rfl)
          (by rw [← hc, hasCol_eq_isSome, agregarCore_getCol_dia_semana]; rfl)
          (by rw [← hc, hasCol_eq_isSome, agregarCore_getCol_dia_mes]; rfl)
          (by rw [← hc, hasCol_eq_isSome, agregarCore_getCol_dia_anio]; rfl)
          (by rw [← hc, hasCol_eq_isSome, agregarCore_getCol_lag1]; rfl)
          (by rw [← hc, hasCol_eq_isSome, agregarCore_getCol_lag7]; rfl)
          (by rw [← hc, hasCol_eq_isSome, agregarCore_getCol_lag14]; rfl)
          (by rw [← hc, hasCol_eq_isSome, agregarCore_getCol_media]; rfl)
      · rw [← hc]
        exact colNames_agregarCore_nodup df dates stores products units hnd
      · intro c
        by_cases hcd : c ∈ derivedNames
        · simp only [derivedNames, List.mem_cons, List.not_mem_nil, or_false] at hcd
          rcases hcd with rfl | rfl | rfl | rfl | rfl | rfl | rfl | rfl
          · rw [agregarCore_getCol_mes, ← hc, agregarCore_getCol_mes]
          · rw [agregarCore_getCol_dia_semana, ← hc, agregarCore_getCol_dia_semana]
          · rw [agregarCore_getCol_dia_mes, ← hc, agregarCore_getCol_dia_mes]
          · rw [agregarCore_getCol_dia_anio, ← hc, agregarCore_getCol_dia_anio]
          · rw [agregarCore_getCol_lag1, ← hc, agregarCore_getCol_lag1]
          · rw [agregarCore_getCol_lag7, ← hc, agregarCore_getCol_lag7]
          · rw [agregarCore_getCol_lag14, ← hc, agregarCore_getCol_lag14]
          · rw [agregarCore_getCol_media, ← hc, agregarCore_getCol_media]
        · rw [agregarCore_getCol_other _ _ _ _ _ _ hcd]
    rw [heq] at h2nd
    exact h2nd

/-- C8 witness: the amended theorem at the one-row frame `c8df`: reapplying
the deriver to its own output returns that output unchanged. -/
theorem c8_witness :
    (Frame.colNames c8df).Nodup ∧ agregar_caracteristicas c8R = some c8R :=
  ⟨by decide,
   (c8_mutates_in_place_but_idempotent c8df c8R c8R (by decide) rfl).2⟩

/-! ## Lemmas about the handler's frame construction (claim C2) -/

theorem recLookup_cons (kv : String × Cell) (rest : Rec) (c : String) :
    recLookup (kv :: rest) c = if kv.1 = c then some kv.2 else recLookup rest c := by
  by_cases h : kv.1 = c <;> simp [recLookup, List.find?, h]

theorem recLookup_eq_none_iff (r : Rec) (c : String) :
    recLookup r c = none ↔ c ∉ r.map Prod.fst := by
  induction r with
  | nil => simp [recLookup, List.find?]
  | cons kv rest ih =>
    rw [recLookup_cons]
    by_cases h : kv.1 = c
    · simp [h]
    · rw [if_neg h, ih, List.map_cons, List.mem_cons]
      constructor
      · rintro hnot (hcc | hm)
        · exact h hcc.symm
        · exact hnot hm
      · intro hnot hm
        exact hnot (Or.inr hm)

theorem contains_eq_decide_mem (l : List String) (c : String) :
    l.contains c = decide (c ∈ l) := List.elem_eq_mem c l

theorem mem_foldl_dedup (l : List String) :
    ∀ (acc : List String) (x : String),
      (x ∈ l.foldl (fun acc y => if acc.contains y then acc else acc ++ [y]) acc) ↔
        x ∈ acc ∨ x ∈ l := by
  induction l with
  | nil => intro acc x; simp
  | cons y l' ih =>
    intro acc x
    simp only [List.foldl_cons]
    by_cases hy : acc.contains y
    · rw [if_pos hy, ih]
      constructor
      · rintro (ha | hl)
        · exact Or.inl ha
        · exact Or.inr (List.mem_cons_of_mem _ hl)
      · rintro (ha | hl)
        · exact Or.inl ha
        · rcases List.mem_cons.mp hl with rfl | hl'
          · rw [contains_eq_decide_mem] at hy
            exact Or.inl (by simpa using hy)
          · exact Or.inr hl'
    · rw [if_neg hy, ih, List.mem_append, List.mem_singleton]
      constructor
      · rintro ((ha | rfl) | hl)
        · exact Or.inl ha
        · exact Or.inr (List.mem_cons_self _ _)
        · exact Or.inr (List.mem_cons_of_mem _ hl)
      · rintro (ha | hl)
        · exact Or.inl (Or.inl ha)
        · rcases List.mem_cons.mp hl with rfl | hl'
          · exact Or.inl (Or.inr rfl)
          · exact Or.inr hl'

theorem mem_dedupFirst (l : List String) (x : String) : x ∈ dedupFirst l ↔ x ∈ l := by
  unfold dedupFirst
  rw [mem_foldl_dedup]
  simp

theorem colNames_map_mk (l : List String) (f : String → List Cell) :
    Frame.colNames (l.map fun c => (c, f c)) = l := by
  induction l with
  | nil => rfl
  | cons c l' ih =>
    show c :: Frame.colNames (l'.map fun c => (c, f c)) = c :: l'
    rw [ih]

theorem colNames_buildFrame (recs : List Rec) :
    Frame.colNames (buildFrame recs) =
      dedupFirst (recs.flatMap fun r => r.map Prod.fst) := by
  unfold buildFrame
  exact colNames_map_mk _ _

theorem hasCol_buildFrame_false (recs : List Rec) (c : String)
    (h : ∀ r ∈ recs, recLookup r c = none) :
    (buildFrame recs).hasCol c = false := by
  rw [← Bool.not_eq_true, ← mem_colNames_iff_hasCol, colNames_buildFrame, mem_dedupFirst]
  intro hmem
  rw [List.mem_flatMap] at hmem
  obtain ⟨r, hr, hcr⟩ := hmem
  exact ((recLookup_eq_none_iff r c).mp (h r hr)) hcr

theorem getCol_map_mk (l : List String) (f : String → List Cell) (c : String)
    (cs : List Cell)
    (h : Frame.getCol (l.map fun x => (x, f x)) c = some cs) : ∃ x, cs = f x := by
  induction l with
  | nil => cases h
  | cons y l' ih =>
    rw [List.map_cons, getCol_cons] at h
    by_cases hy : y = c
    · rw [if_pos hy] at h
      exact ⟨y, (Option.some.inj h).symm⟩
    · rw [if_neg hy] at h
      exact ih h

theorem nrows_buildFrame (recs : List Rec) (c : String)
    (h : (buildFrame recs).hasCol c = true) :
    Frame.nrows (buildFrame recs) = recs.length := by
  unfold buildFrame at *
  cases hd : dedupFirst (recs.flatMap fun r => r.map Prod.fst) with
  | nil =>
    rw [hd] at h
    exact absurd h (by simp [Frame.hasCol])
  | cons c0 l' =>
    show (recs.map fun r => (recLookup r c0).getD .nan).length = recs.length
    exact List.length_map _ _

theorem nrows_setCol_of_getCol (df : Frame) (c : String) (cs vs : List Cell)
    (hg : df.getCol c = some cs) (hl : vs.length = cs.length) :
    (df.setCol c vs).nrows = df.nrows := by
  unfold Frame.setCol
  have hhas : df.hasCol c = true := by rw [hasCol_eq_isSome, hg]; rfl
  rw [if_pos hhas]
  cases df with
  | nil => cases hg
  | cons kv rest =>
    by_cases hk : kv.1 = c
    · rw [getCol_cons, if_pos hk] at hg
      have hcs : cs = kv.2 := (Option.some.inj hg).symm
      simp only [List.map_cons, if_pos hk]
      show vs.length = kv.2.length
      rw [hl, hcs]
    · simp only [List.map_cons, if_neg hk]
      rfl

theorem nrows_predictDateStep (today : Date) (df0 : Frame) :
    (predictDateStep today df0).nrows = df0.nrows := by
  unfold predictDateStep
  by_cases h : df0.hasCol "Date"
  · rw [if_pos h]
    have hs : (df0.getCol "Date").isSome := by rw [← hasCol_eq_isSome]; exact h
    obtain ⟨ds, hds⟩ := Option.isSome_iff_exists.mp hs
    rw [hds, Option.getD_some]
    exact nrows_setCol_of_getCol df0 "Date" ds _ hds (List.length_map _ _)
  · simp only [Bool.not_eq_true] at h
    rw [if_neg (by simp [h])]
    exact nrows_setCol_replicate df0 "Date" _ h

theorem hasCol_predictDateStep_ne (today : Date) (df0 : Frame) (c : String)
    (h : c ≠ "Date") : (predictDateStep today df0).hasCol c = df0.hasCol c := by
  unfold predictDateStep
  by_cases hd : df0.hasCol "Date" <;>
    simp [hd, hasCol_setCol_ne _ _ _ _ h]

theorem getCol_fillIfAbsent_ne (df : Frame) (c c' : String) (v : Cell) (h : c' ≠ c) :
    (fillIfAbsent df c v).getCol c' = df.getCol c' := by
  unfold fillIfAbsent
  by_cases hb : df.hasCol c <;> simp [hb, getCol_setCol_ne _ _ _ _ h]

theorem getCol_fillIfAbsent_present (df : Frame) (c : String) (v : Cell)
    (h : df.hasCol c = true) : (fillIfAbsent df c v).getCol c = df.getCol c := by
  simp [fillIfAbsent, h]

theorem getCol_fillIfAbsent_absent (df : Frame) (c : String) (v : Cell)
    (h : df.hasCol c = false) :
    (fillIfAbsent df c v).getCol c = some (List.replicate df.nrows v) := by
  simp [fillIfAbsent, h, getCol_setCol_self]

theorem hasCol_fillIfAbsent_ne (df : Frame) (c c' : String) (v : Cell) (h : c' ≠ c) :
    (fillIfAbsent df c v).hasCol c' = df.hasCol c' := by
  unfold fillIfAbsent
  by_cases hb : df.hasCol c <;> simp [hb, hasCol_setCol_ne _ _ _ _ h]

theorem getCol_renameCols_untouched (df : Frame) (m : List (String × String))
    (c : String) (hsrc : ∀ p ∈ m, p.1 ≠ c) (htgt : ∀ p ∈ m, p.2 ≠ c) :
    (df.renameCols m).getCol c = df.getCol c := by
  induction df with
  | nil => rfl
  | cons kv rest ih =>
    unfold Frame.renameCols at *
    rw [List.map_cons]
    cases hf : m.find? (fun p => p.1 = kv.1) with
    | none =>
      simp only [hf]
      rw [getCol_cons, getCol_cons]
      by_cases hk : kv.1 = c <;> simp [hk, ih]
    | some p =>
      have hpm : p ∈ m := List.mem_of_find?_eq_some hf
      have hp1 : p.1 = kv.1 := by simpa using List.find?_some hf
      simp only [hf]
      rw [getCol_cons, getCol_cons, if_neg (htgt p hpm),
        if_neg (fun hc => hsrc p hpm (hp1.trans hc))]
      exact ih

theorem getCol_renameCols_via (df : Frame) (m : List (String × String))
    (src tgt : String)
    (hfind : m.find? (fun p => p.1 = src) = some (src, tgt))
    (hother : ∀ p ∈ m, p.1 ≠ src → p.2 ≠ tgt)
    (htgt : df.hasCol tgt = false) :
    (df.renameCols m).getCol tgt = df.getCol src := by
  induction df with
  | nil => rfl
  | cons kv rest ih =>
    have htgt' : kv.1 ≠ tgt ∧ Frame.hasCol rest tgt = false := by
      rw [hasCol_cons] at htgt
      by_cases hk : kv.1 = tgt
      · rw [if_pos hk] at htgt; cases htgt
      · rw [if_neg hk] at htgt; exact ⟨hk, htgt⟩
    unfold Frame.renameCols at *
    rw [List.map_cons]
    by_cases hks : kv.1 = src
    · have hfind' : m.find? (fun p => p.1 = kv.1) = some (src, tgt) := by
        rw [hks]
        exact hfind
      simp only [hfind']
      rw [getCol_cons, getCol_cons]
      simp [hks]
    · cases hf : m.find? (fun p => p.1 = kv.1) with
      | none =>
        simp only [hf]
        rw [getCol_cons, getCol_cons, if_neg htgt'.1, if_neg hks]
        exact ih htgt'.2
      | some p =>
        have hpm : p ∈ m := List.mem_of_find?_eq_some hf
        have hp1 : p.1 = kv.1 := by simpa using List.find?_some hf
        simp only [hf]
        rw [getCol_cons, getCol_cons,
          if_neg (hother p hpm (by rw [hp1]; exact hks)), if_neg hks]
        exact ih htgt'.2

theorem renameMapFor_target_absent (df : Frame) (t : String)
    (h : df.hasCol t = true) : ∀ p ∈ renameMapFor df, p.2 ≠ t := by
  intro p hp hpt
  unfold renameMapFor at hp
  have hcond := List.of_mem_filter hp
  rw [hpt] at hcond
  simp [h] at hcond

theorem renameMapFor_subset (df : Frame) :
    ∀ p ∈ renameMapFor df, p ∈ synonymMapping := by
  intro p hp
  exact List.mem_of_mem_filter hp

/-- C2 amended: in the `/predict` handler the canonical sold-units column is
pre-filled with the sentinel 0 BEFORE `_normalize_input_columns` runs, so the
units synonyms are never consulted: whenever no record carries the canonical
`Units Sold` key — whatever synonyms and values the records do carry — the
built frame's `Units Sold` column is the all-zero sentinel column.  The store
id and product id synonyms, by contrast, are mapped onto the canonical names
before the "UNKNOWN" defaults are considered, so the client's values under
those synonyms are used.  The date field defaults to today's date when absent
from every record, and an unparseable date value becomes the null date
sentinel. -/
theorem c2_normalization_amended :
    (∀ (today : Date) (recs : List Rec),
        (∀ r ∈ recs, recLookup r "Units Sold" = none) →
        (buildInputFrame today recs).getCol "Units Sold" =
          some (List.replicate (Frame.nrows (buildFrame recs)) (Cell.num 0))) ∧
      (∀ df : Frame,
          df.hasCol "store" = true → df.hasCol "Store ID" = false →
          df.hasCol "Store" = false → df.hasCol "StoreID" = false →
          df.hasCol "store_id" = false → df.hasCol "Store Id" = false →
          df.hasCol "product" = true → df.hasCol "Product ID" = false →
          df.hasCol "Product" = false → df.hasCol "ProductID" = false →
          df.hasCol "product_id" = false →
          (normalize_input_columns df).getCol "Store ID" = df.getCol "store" ∧
            (normalize_input_columns df).getCol "Product ID" = df.getCol "product") ∧
      (∀ (today : Date) (recs : List Rec),
          (∀ r ∈ recs, recLookup r "Date" = none) →
          (buildInputFrame today recs).getCol "Date" =
            some (List.replicate (Frame.nrows (buildFrame recs)) (Cell.date today))) ∧
      (∀ s : String, parseDateISO s = none → toDatetimeCoerce (.str s) = Cell.nan) := by
  have hsrcU : ∀ df : Frame, ∀ p ∈ renameMapFor df, p.1 ≠ "Units Sold" := fun df p hp =>
    (by decide : ∀ q ∈ synonymMapping, q.1 ≠ "Units Sold") p (renameMapFor_subset df p hp)
  have hsrcD : ∀ df : Frame, ∀ p ∈ renameMapFor df, p.1 ≠ "Date" := fun df p hp =>
    (by decide : ∀ q ∈ synonymMapping, q.1 ≠ "Date") p (renameMapFor_subset df p hp)
  have htgtD : ∀ df : Frame, ∀ p ∈ renameMapFor df, p.2 ≠ "Date" := fun df p hp =>
    (by decide : ∀ q ∈ synonymMapping, q.2 ≠ "Date") p (renameMapFor_subset df p hp)
  refine ⟨?_, ?_, ?_, ?_⟩
  · intro today recs hnone
    have h0 : (buildFrame recs).hasCol "Units Sold" = false :=
      hasCol_buildFrame_false _ _ hnone
    have h1 : (predictDateStep today (buildFrame recs)).hasCol "Units Sold" = false := by
      rw [hasCol_predictDateStep_ne _ _ _ (by decide)]
      exact h0
    have h2 : (fillIfAbsent (predictDateStep today (buildFrame recs)) "Units Sold"
        (.num 0)).getCol "Units Sold" =
        some (List.replicate (Frame.nrows (buildFrame recs)) (Cell.num 0)) := by
      rw [getCol_fillIfAbsent_absent _ _ _ h1, nrows_predictDateStep]
    have h2has : (fillIfAbsent (predictDateStep today (buildFrame recs)) "Units Sold"
        (.num 0)).hasCol "Units Sold" = true := by
      rw [hasCol_eq_isSome, h2]
      rfl
    show (normalize_input_columns _).getCol "Units Sold" = _
    unfold normalize_input_columns
    rw [getCol_fillIfAbsent_ne _ _ _ _ (by decide),
      getCol_fillIfAbsent_ne _ _ _ _ (by decide),
      getCol_fillIfAbsent_present _ _ _ (by
        rw [hasCol_eq_isSome,
          getCol_renameCols_untouched _ _ _ (hsrcU _) (renameMapFor_target_absent _ _ h2has),
          ← hasCol_eq_isSome]
        exact h2has),
      getCol_renameCols_untouched _ _ _ (hsrcU _) (renameMapFor_target_absent _ _ h2has)]
    exact h2
  · intro df hstore hSID hStore hStoreID hstore_id hStoreId hproduct hPID hProduct
      hProductID hproduct_id
    have hm : renameMapFor df =
        ("store", "Store ID") :: ("product", "Product ID") ::
          List.filter (fun kv => df.hasCol kv.1 && !df.hasCol kv.2)
            [("Units", "Units Sold"), ("UnitsSold", "Units Sold"),
             ("Units_Sold", "Units Sold"), ("units_sold", "Units Sold"),
             ("units", "Units Sold")] := by
      unfold renameMapFor synonymMapping
      simp [List.filter_cons, hstore, hSID, hStore, hStoreID, hstore_id, hStoreId,
        hproduct, hPID, hProduct, hProductID, hproduct_id]
    have hrenS : (df.renameCols (renameMapFor df)).getCol "Store ID" =
        df.getCol "store" := by
      apply getCol_renameCols_via df _ "store" "Store ID" ?_ ?_ hSID
      · rw [hm]
        simp [List.find?]
      · rw [hm]
        intro p hp hps
        rcases List.mem_cons.mp hp with rfl | hp'
        · exact absurd rfl hps
        rcases List.mem_cons.mp hp' with rfl | hp''
        · decide
        · exact (by decide :
            ∀ q ∈ [(("Units" : String), ("Units Sold" : String)),
              ("UnitsSold", "Units Sold"), ("Units_Sold", "Units Sold"),
              ("units_sold", "Units Sold"), ("units", "Units Sold")],
              q.2 ≠ "Store ID") p (List.mem_of_mem_filter hp'')
    have hrenP : (df.renameCols (renameMapFor df)).getCol "Product ID" =
        df.getCol "product" := by
      apply getCol_renameCols_via df _ "product" "Product ID" ?_ ?_ hPID
      · rw [hm]
        simp [List.find?]
      · rw [hm]
        intro p hp hps
        rcases List.mem_cons.mp hp with rfl | hp'
        · decide
        rcases List.mem_cons.mp hp' with rfl | hp''
        · exact absurd rfl hps
        · exact (by decide :
            ∀ q ∈ [(("Units" : String), ("Units Sold" : String)),
              ("UnitsSold", "Units Sold"), ("Units_Sold", "Units Sold"),
              ("units_sold", "Units Sold"), ("units", "Units Sold")],
              q.2 ≠ "Product ID") p (List.mem_of_mem_filter hp'')
    have hRhasS : (df.renameCols (renameMapFor df)).hasCol "Store ID" = true := by
      rw [hasCol_eq_isSome, hrenS, ← hasCol_eq_isSome]
      exact hstore
    have hRhasP : (df.renameCols (renameMapFor df)).hasCol "Product ID" = true := by
      rw [hasCol_eq_isSome, hrenP, ← hasCol_eq_isSome]
      exact hproduct
    constructor
    · unfold normalize_input_columns
      rw [getCol_fillIfAbsent_ne _ _ _ _ (by decide),
        getCol_fillIfAbsent_present _ _ _ (by
          rw [hasCol_fillIfAbsent_ne _ _ _ _ (by decide)]
          exact hRhasS),
        getCol_fillIfAbsent_ne _ _ _ _ (by decide), hrenS]
    · unfold normalize_input_columns
      rw [getCol_fillIfAbsent_present _ _ _ (by
          rw [hasCol_fillIfAbsent_ne _ _ _ _ (by decide),
            hasCol_fillIfAbsent_ne _ _ _ _ (by decide)]
          exact hRhasP),
        getCol_fillIfAbsent_ne _ _ _ _ (by decide),
        getCol_fillIfAbsent_ne _ _ _ _ (by decide), hrenP]
  · intro today recs hnone
    have h0 : (buildFrame recs).hasCol "Date" = false :=
      hasCol_buildFrame_false _ _ hnone
    have h1 : (predictDateStep today (buildFrame recs)).getCol "Date" =
        some (List.replicate (Frame.nrows (buildFrame recs)) (Cell.date today)) := by
      unfold predictDateStep
      rw [if_neg (by simp [h0]), getCol_setCol_self]
    have h1has : (predictDateStep today (buildFrame recs)).hasCol "Date" = true := by
      rw [hasCol_eq_isSome, h1]
      rfl
    have h2 : (fillIfAbsent (predictDateStep today (buildFrame recs)) "Units Sold"
        (.num 0)).getCol "Date" =
        some (List.replicate (Frame.nrows (buildFrame recs)) (Cell.date today)) := by
      rw [getCol_fillIfAbsent_ne _ _ _ _ (by decide)]
      exact h1
    have h2has : (fillIfAbsent (predictDateStep today (buildFrame recs)) "Units Sold"
        (.num 0)).hasCol "Date" = true := by
      rw [hasCol_eq_isSome, h2]
      rfl
    show (normalize_input_columns _).getCol "Date" = _
    unfold normalize_input_columns
    rw [getCol_fillIfAbsent_ne _ _ _ _ (by decide),
      getCol_fillIfAbsent_ne _ _ _ _ (by decide),
      getCol_fillIfAbsent_ne _ _ _ _ (by decide),
      getCol_renameCols_untouched _ _ _ (hsrcD _) (htgtD _)]
    exact h2
  · intro s h
    simp [toDatetimeCoerce, h]

/-- C2 witness: the amended theorem at concrete inputs — a one-record request
carrying only the `units_sold` synonym still gets the all-zero canonical
sold-units column; a frame carrying `store`/`product` synonyms has their
values moved onto the canonical columns; a record without a date gets today's
date; and an unparseable date string coerces to the null date sentinel. -/
theorem c2_amended_witness :
    (buildInputFrame ⟨2025, 6, 1⟩
        [[("units_sold", .num 5), ("Date", .str "2022-01-01")]]).getCol "Units Sold" =
      some (List.replicate
        (Frame.nrows (buildFrame [[("units_sold", .num 5), ("Date", .str "2022-01-01")]]))
        (Cell.num 0)) ∧
      (normalize_input_columns [("store", [.str "S1"]), ("product", [.str "P1"])]).getCol
          "Store ID" =
        Frame.getCol [("store", [.str "S1"]), ("product", [.str "P1"])] "store" ∧
      (buildInputFrame ⟨2025, 6, 1⟩ [[("units_sold", .num 5)]]).getCol "Date" =
        some (List.replicate (Frame.nrows (buildFrame [[("units_sold", .num 5)]]))
          (Cell.date ⟨2025, 6, 1⟩)) ∧
      toDatetimeCoerce (.str "soon") = Cell.nan :=
  ⟨c2_normalization_amended.1 ⟨2025, 6, 1⟩ _ (by decide),
   (c2_normalization_amended.2.1 [("store", [.str "S1"]), ("product", [.str "P1"])]
     (by decide) (by decide) (by decide) (by decide) (by decide) (by decide)
     (by decide) (by decide) (by decide) (by decide) (by decide)).1,
   c2_normalization_amended.2.2.1 ⟨2025, 6, 1⟩ _ (by decide),
   c2_normalization_amended.2.2.2 "soon" (by decide)⟩

/-- C5 witness: the round trip at a concrete one-version registry. -/
theorem c5_witness : load_registry (save_registry regV1) = regV1 :=
  c5_registry_roundtrip regV1

/-- C6 witness: the amended facts at a concrete registry. -/
theorem c6_witness :
    save_registry_chars regV1 ≠ [] ∧ save_registry_partial regV1 0 = [] :=
  ⟨c6_save_truncates_in_place.1 regV1, c6_save_truncates_in_place.2.1 regV1⟩

/-- C9 witness: the amended theorem at a concrete loaded model. -/
theorem c9_witness :
    predictEndpoint (some ⟨none, fun _ => none⟩) ⟨2026, 1, 10⟩ [] =
      (.error ⟨400, "`records` vacío"⟩, false) :=
  (c9_empty_batch_400 ⟨none, fun _ => none⟩ ⟨2026, 1, 10⟩).1

/-- C10 witness: the theorem at a concrete nonempty payload. -/
theorem c10_witness :
    predictEndpoint none ⟨2026, 1, 10⟩ [[("Date", .str "not-a-date")]] =
      (.error ⟨503, "Modelo no cargado"⟩, false) :=
  c10_no_model_always_503 ⟨2026, 1, 10⟩ [[("Date", .str "not-a-date")]]

end Eva04

